import Mathlib

/-!
Verification development for the LTX executor of runltp-ng (src/ltx/ltx.c).

The executor speaks a MessagePack-like wire format over stdin/stdout.  This
file gives a shallow embedding of the wire codec (ltx_write_number,
ltx_write_obj, ltx_write_msg, ltx_read_size, ltx_read_str_size,
ltx_read_str), of the per-slot environment store mutated by
process_env_msg and applied by process_exec_msg, of the per-message
dispatch in process_msgs together with the handlers
process_exec_msg / process_get_file_msg / process_set_file_msg /
process_kill_msg / process_env_msg, and of drain_write_buf.

Modelling conventions:
* A byte is a Nat kept below 256 by construction (uint8 casts in the C
  become explicit mod 256).
* The C cursor (start pointer, used, left) over the input buffer is
  modelled as the pair of the list of consumed bytes (pre, i.e.
  start[0..used)) and the list of remaining bytes (post); the C field
  left equals post.length whenever the C cursor is in bounds.  The C
  never bound-checks ltx_cur_take itself; every in-scope call site
  checks availability first, and the model only evaluates such calls on
  inputs where enough bytes are present.
* Kernel objects (file descriptors, fork, pipes, epoll) are abstracted:
  the file system is a map from path bytes to content bytes, and the
  bytes a handler sends to stdout (buffered frames followed by
  sendfile/splice streams, which the C serialises by draining the
  buffer first) are returned as one list in stream order.  The out
  buffer capacity assert of ltx_msg_echo is not modelled: the model
  treats the output side as always having room, which is the situation
  the echo/ordering claims describe.
-/

/-! ## Constants from ltx.c -/

/-- ARG_MAX from linux/limits.h, used to size the env stores. -/
def ARG_MAX : Nat := 131072

/-- PATH_MAX from linux/limits.h. -/
def PATH_MAX : Nat := 4096

/-- Capacity of a per-slot env key store: char env_ks[ARG_MAX/16]. -/
def KS_CAP : Nat := ARG_MAX / 16

/-- Capacity of a per-slot env value store: char env_vs[ARG_MAX/2]. -/
def VS_CAP : Nat := ARG_MAX / 2

/-- The version string VERSION = "0.0.1-dev" prefixed by "LTX Version=",
as a byte list (21 characters, no terminator). -/
def version_str : List Nat :=
  [76, 84, 88, 32, 86, 101, 114, 115, 105, 111, 110, 61,
   48, 46, 48, 46, 49, 45, 100, 101, 118]

/-- The Log text emitted for a Version message.  The C passes
LTX_STR(sizeof("LTX Version=" VERSION), "LTX Version=" VERSION) and
sizeof counts the NUL terminator of the string literal, so the payload
is the 21 text bytes followed by one 0 byte (22 bytes in total). -/
def version_payload : List Nat := version_str ++ [0]

/-! ## Encoder: ltx_write_number, ltx_write_obj, ltx_write_msg -/

/-- enum ltx_num_kind: the four header families ltx_write_number can
emit (array sizes, self-contained numbers, string sizes, binary sizes). -/
inductive LtxNumKind where
  | array_size
  | ind_num
  | str_size
  | bin_size
deriving DecidableEq, Repr

/-- ltx_write_number from ltx.c: pick header byte h and the count l of
following big-endian bytes, then push h and the l bytes n >> (64-8j)
for j = 9-l .. 8.  The C bit tests on masks are written as div/mod
tests on the same bit ranges:
  (~0ULL << 32) & n  is  n / 2^32 ≠ 0      (bits 32..63 of a uint64),
  0xffff0000 & n     is  (n / 2^16) % 2^16 ≠ 0   (bits 16..31),
  0xff00 & n         is  (n / 2^8) % 2^8 ≠ 0     (bits 8..15),
  0x80 & n           is  (n / 2^7) % 2 ≠ 0       (bit 7). -/
def ltx_write_number (kind : LtxNumKind) (n : Nat) : List Nat :=
  let hl : Nat × Nat :=
    match kind with
    | .array_size =>
      if n > 15 then (0xdc, 2) else (0x90 + n, 0)
    | .ind_num =>
      if n / 2 ^ 32 ≠ 0 then (0xcf, 8)
      else if (n / 2 ^ 16) % 2 ^ 16 ≠ 0 then (0xce, 4)
      else if (n / 2 ^ 8) % 2 ^ 8 ≠ 0 then (0xcd, 2)
      else if (n / 2 ^ 7) % 2 ≠ 0 then (0xcc, 1)
      else (n, 0)
    | .str_size =>
      if (n / 2 ^ 16) % 2 ^ 16 ≠ 0 then (0xdb, 4)
      else if (n / 2 ^ 8) % 2 ^ 8 ≠ 0 then (0xda, 2)
      else if n > 31 then (0xd9, 1)
      else (0xa0 + n, 0)
    | .bin_size =>
      if (n / 2 ^ 16) % 2 ^ 16 ≠ 0 then (0xc6, 4)
      else if (n / 2 ^ 8) % 2 ^ 8 ≠ 0 then (0xc5, 2)
      else (0xc4, 1)
  hl.1 % 256 ::
    (List.range hl.2).map (fun k => (n >>> (64 - 8 * (9 - hl.2 + k))) % 256)

/-- struct ltx_obj: the values ltx_write_obj can serialise.  binN is
LTX_BIN(len, NULL): a bin header with no payload bytes (the payload is
streamed separately by sendfile). -/
inductive LtxObj where
  | num (n : Nat)
  | str (s : List Nat)
  | bin (s : List Nat)
  | binN (len : Nat)
  | nil
deriving DecidableEq, Repr

/-- ltx_write_obj from ltx.c. -/
def ltx_write_obj : LtxObj → List Nat
  | .num n => ltx_write_number .ind_num n
  | .str s => ltx_write_number .str_size s.length ++ s
  | .bin s => ltx_write_number .bin_size s.length ++ s
  | .binN len => ltx_write_number .bin_size len
  | .nil => [0xc0]

/-- ltx_write_msg from ltx.c: fixarray header for 1 + number of
objects, the message type byte, then each object. -/
def ltx_write_msg (msg_type : Nat) (objs : List LtxObj) : List Nat :=
  ltx_write_number .array_size (objs.length + 1) ++ [msg_type] ++
    (objs.map ltx_write_obj).flatten

/-! ## Cursor and decoder: ltx_cur_shift, ltx_read_size,
ltx_read_str_size, ltx_read_str -/

/-- struct ltx_cursor: pre is start[0..used) (the consumed bytes,
echoed by ltx_msg_echo), post is the remaining buffer bytes; the C
field left is post.length. -/
structure Cursor where
  pre : List Nat
  post : List Nat
deriving DecidableEq, Repr

/-- ltx_cur_take: hand out the next len bytes and advance. -/
def ltx_cur_take (c : Cursor) (len : Nat) : List Nat × Cursor :=
  (c.post.take len, ⟨c.pre ++ c.post.take len, c.post.drop len⟩)

/-- ltx_cur_shift: take a single byte. -/
def ltx_cur_shift (c : Cursor) : Nat × Cursor :=
  (c.post.headD 0, ⟨c.pre ++ [c.post.headD 0], c.post.tail⟩)

/-- The loop body of ltx_read_size: res <<= i*8; res += d[i]. -/
def size_loop : List Nat → Nat → Nat → Nat
  | [], _, res => res
  | b :: bs, i, res => size_loop bs (i + 1) ((res <<< (8 * i)) + b)

/-- ltx_read_size from ltx.c: take len bytes and fold them with
size_loop (starting at index 0 and accumulator 0). -/
def ltx_read_size (c : Cursor) (len : Nat) : Nat × Cursor :=
  let dc := ltx_cur_take c len
  (size_loop dc.1 0 0, dc.2)

/-- Result of ltx_read_str_size: fatal models the ltx_assert on a
non-string format byte (the process exits), incomplete models the -1
return (fewer than w bytes left). -/
inductive SizeRes where
  | fatal
  | incomplete (c : Cursor)
  | ok (n : Nat) (c : Cursor)
deriving DecidableEq, Repr

/-- ltx_read_str_size from ltx.c.  Note the C computes the width of the
following length field as w = 1 + fmt - msgp_str8 (resp. msgp_bin8), so
the widths selected for str8/str16/str32 and bin8/bin16/bin32 are
1, 2 and 3 bytes. -/
def ltx_read_str_size (c : Cursor) : SizeRes :=
  let fc := ltx_cur_shift c
  let fmt := fc.1
  if 0xa0 ≤ fmt ∧ fmt ≤ 0xbf then
    .ok (fmt - 0xa0) fc.2
  else if 0xd9 ≤ fmt ∧ fmt ≤ 0xdb then
    let w := 1 + fmt - 0xd9
    if w > fc.2.post.length then .incomplete fc.2
    else
      let nc := ltx_read_size fc.2 w
      .ok nc.1 nc.2
  else if 0xc4 ≤ fmt ∧ fmt ≤ 0xc6 then
    let w := 1 + fmt - 0xc4
    if w > fc.2.post.length then .incomplete fc.2
    else
      let nc := ltx_read_size fc.2 w
      .ok nc.1 nc.2
  else .fatal

/-- Result of ltx_read_str: nullStr models the {0, NULL} return. -/
inductive StrRes where
  | fatal
  | nullStr (c : Cursor)
  | ok (s : List Nat) (c : Cursor)
deriving DecidableEq, Repr

/-- ltx_read_str from ltx.c. -/
def ltx_read_str (c : Cursor) : StrRes :=
  match ltx_read_str_size c with
  | .fatal => .fatal
  | .incomplete c1 => .nullStr c1
  | .ok l c1 =>
    if l > c1.post.length then .nullStr c1
    else
      let dc := ltx_cur_take c1 l
      .ok dc.1 dc.2

/-- The big-endian value of a byte list, as the specification words it
(each multi-byte integer is read most significant byte first). -/
def big_endian_val (l : List Nat) : Nat :=
  l.foldl (fun r b => r * 256 + b) 0

/-! ## Validation predicates from process_msgs and the handlers -/

/-- The slot id check of process_exec_msg:
ltx_assert(table_id < 0x7f, ...). -/
def exec_slot_ok (table_id : Nat) : Bool := table_id < 0x7f

/-- The slot id check of process_kill_msg:
ltx_assert(table_id < 0x7f, ...). -/
def kill_slot_ok (table_id : Nat) : Bool := table_id < 0x7f

/-- The slot id check of process_env_msg:
ltx_assert(table_id == msgp_nil || table_id < 128, ...). -/
def env_slot_ok (table_id : Nat) : Bool := table_id == 0xc0 || table_id < 128

/-- The per-type arity assertions of process_msgs on the decoded
fixarray length (message types 1, 4, 5 and 8 are outbound only and hit
an always-false assert). -/
def arity_ok (msg_type arr_len : Nat) : Bool :=
  match msg_type with
  | 0 => arr_len == 1
  | 1 => false
  | 2 => arr_len == 4
  | 3 => 2 < arr_len
  | 4 => false
  | 5 => false
  | 6 => arr_len == 2
  | 7 => arr_len == 3
  | 8 => false
  | 9 => arr_len == 2
  | 10 => arr_len == 1
  | _ => false

/-! ## Per-slot environment store (struct ltx_child, process_env_msg
lines 786-826, applied by the child branch of process_exec_msg) -/

/-- The env-related fields of struct ltx_child: two packed byte stores
(env_ks, env_vs) and their uint16 offset tables (env_ksv, env_vsv),
modelled as total functions from index to byte / offset (the C arrays
are zero initialised, matching emptyChild). -/
structure Child where
  env_ks : Nat → Nat
  env_ksv : Nat → Nat
  env_vs : Nat → Nat
  env_vsv : Nat → Nat

/-- A fresh slot: all arrays zero. -/
def emptyChild : Child := ⟨fun _ => 0, fun _ => 0, fun _ => 0, fun _ => 0⟩

/-- memcpy of s followed by a NUL terminator at off (ltx_to_cstring /
the key memcpy plus cur[key.len] = 0). -/
def arr_store (a : Nat → Nat) (off : Nat) (s : List Nat) : Nat → Nat :=
  fun j =>
    if off ≤ j ∧ j < off + s.length + 1 then (s ++ [0]).getD (j - off) 0
    else a j

/-- memmove(a + dst, a + src, len). -/
def arr_move (a : Nat → Nat) (dst src len : Nat) : Nat → Nat :=
  fun j => if dst ≤ j ∧ j < dst + len then a (src + (j - dst)) else a j

/-- The len bytes at offset off (the region memcmp compares). -/
def arr_read (a : Nat → Nat) (off len : Nat) : List Nat :=
  (List.range len).map (fun k => a (off + k))

/-- The key-location loop of process_env_msg: walk i = 0..255; an empty
entry (cur_len = 0) stores the key (asserting the key store does not
overflow) and records the end offset; an entry holding the same key
breaks without change.  none models a fatal assert (key store
exhausted, or the loop running past i = 255). -/
def env_key_loop (ch : Child) (key : List Nat) : Nat → Nat → Option (Nat × Child)
  | _, 0 => none
  | i, fuel + 1 =>
    let cur_off := ch.env_ksv i
    let nxt_off := ch.env_ksv (i + 1)
    let new_off := cur_off + key.length + 1
    let cur_len := if nxt_off ≠ 0 then nxt_off - cur_off else 0
    if cur_len = 0 then
      if new_off < KS_CAP then
        some (i, { ch with
          env_ks := arr_store ch.env_ks cur_off key,
          env_ksv := fun j => if j = i + 1 then new_off else ch.env_ksv j })
      else none
    else if key.length + 1 = cur_len ∧ arr_read ch.env_ks cur_off key.length = key then
      some (i, ch)
    else env_key_loop ch key (i + 1) fuel

/-- The slot-table mutation of process_env_msg for a non-nil table id:
locate or insert the key, then store the value, shifting the packed
value store when the value length changed
(memmove(env_vs + new_off, env_vs + nxt_off, ARG_MAX/2 - max(...)))
and updating env_vsv[i + 1] (and only that offset). -/
def envUpdate (ch : Child) (key val : List Nat) : Option Child :=
  match env_key_loop ch key 0 256 with
  | none => none
  | some (i, ch1) =>
    if i < 255 then
      let cur_off := ch1.env_vsv i
      let nxt_off := ch1.env_vsv (i + 1)
      let new_off := cur_off + val.length + 1
      let slot_len := if nxt_off ≠ 0 then nxt_off - cur_off else 0
      if new_off < VS_CAP then
        let vs1 :=
          if slot_len ≠ 0 ∧ slot_len ≠ val.length + 1 then
            arr_move ch1.env_vs new_off nxt_off (VS_CAP - max nxt_off new_off)
          else ch1.env_vs
        some { ch1 with
          env_vs := arr_store vs1 cur_off val,
          env_vsv := fun j => if j = i + 1 then new_off else ch1.env_vsv j }
      else none
    else none

/-- Read the C string starting at off (fuel bounds the scan by the
store capacity). -/
def read_cstr (a : Nat → Nat) (off : Nat) : Nat → List Nat
  | 0 => []
  | fuel + 1 => if a off = 0 then [] else a off :: read_cstr a (off + 1) fuel

/-- The environment entries the child branch of process_exec_msg
applies with setenv: entry i is (env_ks + env_ksv[i],
env_vs + env_vsv[i]), and the loop stops at the first i with
env_ksv[i + 1] = 0. -/
def child_env_list (ch : Child) : Nat → Nat → List (List Nat × List Nat)
  | _, 0 => []
  | i, fuel + 1 =>
    if ch.env_ksv (i + 1) = 0 then []
    else
      (read_cstr ch.env_ks (ch.env_ksv i) KS_CAP,
       read_cstr ch.env_vs (ch.env_vsv i) VS_CAP) ::
        child_env_list ch (i + 1) fuel

/-- The full environment overlay applied between fork and exec. -/
def applied_env (ch : Child) : List (List Nat × List Nat) :=
  child_env_list ch 0 256

/-! ## Executor state and message handlers -/

/-- The state a single message dispatch can read or write: the file
system (path bytes to content bytes), the slot table, and the
executor-wide environment set by Env with a nil table id (setenv). -/
structure St where
  fs : List Nat → Option (List Nat)
  childs : Nat → Child
  genv : List Nat → Option (List Nat)

/-- Initial state: empty file system, zeroed slots, empty own env. -/
def st0 : St :=
  ⟨fun _ => none, fun _ => emptyChild, fun _ => none⟩

/-- Result of one handler / one message dispatch: fatal models an
ltx_assert or LTX_EXP_* failure (exit(1)); incomplete models the
return-0 / goto-out path (message left for the next read); ok carries
the bytes appended to the output stream (in stream order), the final
cursor and the new state. -/
inductive PRes where
  | fatal
  | incomplete
  | ok (out : List Nat) (cur : Cursor) (st : St)

/-- The output bytes of a completed dispatch, if any. -/
def PRes.out? : PRes → Option (List Nat)
  | .ok out _ _ => some out
  | _ => none

/-- The count of consumed input bytes of a completed dispatch. -/
def PRes.consumed? : PRes → Option Nat
  | .ok _ cur _ => some cur.pre.length
  | _ => none

/-- Whether the dispatch hit a fatal assertion. -/
def PRes.isFatal : PRes → Bool
  | .fatal => true
  | _ => false

/-- process_env_msg from ltx.c (the echo happens after both strings
are read; a nil table id performs setenv on the executor env). -/
def process_env_msg (st : St) (cur : Cursor) : PRes :=
  let tc := ltx_cur_shift cur
  let table_id := tc.1
  if tc.2.post.length = 0 then .incomplete
  else if ¬ env_slot_ok table_id then .fatal
  else
    match ltx_read_str tc.2 with
    | .fatal => .fatal
    | .nullStr _ => .incomplete
    | .ok key c2 =>
      if ¬ (key.length ≠ 0 ∧ key.length < 256) then .fatal
      else
        match ltx_read_str c2 with
        | .fatal => .fatal
        | .nullStr _ => .incomplete
        | .ok val c3 =>
          if ¬ (val.length < PATH_MAX) then .fatal
          else
            if table_id = 0xc0 then
              .ok c3.pre c3
                { st with genv := fun k => if k = key then some val else st.genv k }
            else
              match envUpdate (st.childs table_id) key val with
              | none => .fatal
              | some ch =>
                .ok c3.pre c3
                  { st with childs := fun i => if i = table_id then ch else st.childs i }

/-- The argument-reading loop of process_exec_msg: read count strings
(each is copied into the slot argv store; a NULL read aborts with
return 0). -/
def read_strs (c : Cursor) : Nat → StrRes
  | 0 => .ok [] c
  | count + 1 =>
    match ltx_read_str c with
    | .fatal => .fatal
    | .nullStr c1 => .nullStr c1
    | .ok _ c1 => read_strs c1 count

/-- process_exec_msg from ltx.c, parent side: validate the slot id,
read args_n - 1 strings, echo; the spawned child and its pipe produce
later Log/Result frames, so the bytes appended by the dispatch itself
are exactly the echo. -/
def process_exec_msg (st : St) (cur : Cursor) (args_n : Nat) : PRes :=
  let tc := ltx_cur_shift cur
  let table_id := tc.1
  if ¬ exec_slot_ok table_id then .fatal
  else if ¬ (args_n - 1 < 256) then .fatal
  else if tc.2.post.length = 0 then .incomplete
  else
    match read_strs tc.2 (args_n - 1) with
    | .fatal => .fatal
    | .nullStr _ => .incomplete
    | .ok _ c1 => .ok c1.pre c1 st

/-- process_get_file_msg from ltx.c: read the path, echo, open and
stat the file (a missing file is a fatal LTX_EXP_FD, a size of at
least 0x7ffff000 a fatal assert), append the Data frame header
LTX_BIN(st_size, NULL), then drain and sendfile the contents. -/
def process_get_file_msg (st : St) (cur : Cursor) : PRes :=
  match ltx_read_str cur with
  | .fatal => .fatal
  | .nullStr _ => .incomplete
  | .ok path c1 =>
    match st.fs path with
    | none => .fatal
    | some content =>
      if content.length ≥ 0x7ffff000 then .fatal
      else
        .ok (c1.pre ++ ltx_write_msg 8 [.binN content.length] ++ content) c1 st

/-- process_set_file_msg from ltx.c: read the path and the declared
binary length, truncate the file, write min(cur.left, bin_len) bytes
from the buffer, splice the remainder from stdin (modelled by the
stdin_tail parameter), then append the re-encoded SetFile frame with a
content-less bin header, drain, and sendfile the file contents (at
most bin_len bytes) back out. -/
def process_set_file_msg (st : St) (cur : Cursor) (stdin_tail : List Nat) : PRes :=
  match ltx_read_str cur with
  | .fatal => .fatal
  | .nullStr _ => .incomplete
  | .ok path c1 =>
    if c1.post.length = 0 then .incomplete
    else
      match ltx_read_str_size c1 with
      | .fatal => .fatal
      | .incomplete _ => .incomplete
      | .ok bin_len c2 =>
        let from_buf_n := min c2.post.length bin_len
        let bc := ltx_cur_take c2 from_buf_n
        let from_splice := stdin_tail.take (bin_len - from_buf_n)
        let content := bc.1 ++ from_splice
        let st1 := { st with fs := fun p => if p = path then some content else st.fs p }
        .ok (ltx_write_msg 7 [.str path, .binN bin_len] ++ content.take bin_len)
          bc.2 st1

/-- process_kill_msg from ltx.c: validate the slot id, echo, send
SIGKILL (no frame is appended beyond the echo; ESRCH is ignored). -/
def process_kill_msg (st : St) (cur : Cursor) : PRes :=
  let tc := ltx_cur_shift cur
  if ¬ kill_slot_ok tc.1 then .fatal
  else .ok tc.2.pre tc.2 st

/-- One iteration of the process_msgs loop on the message starting the
buffer: check the fixarray bit of the format byte
(ltx_assert(msg_fmt & msgp_fixarray0, ...)), compute the uint8 array
length msg_fmt - msgp_fixarray0, read and bound the message type, check
the per-type arity, and dispatch.  t is the ltx_gettime() value used
for Pong and Log timestamps; buf holds the buffered input from the
start of the message and stdin_tail any further stdin bytes a SetFile
splice may consume. -/
def process_one (st : St) (t : Nat) (buf stdin_tail : List Nat) : PRes :=
  let cur0 : Cursor := ⟨[], buf⟩
  let fc := ltx_cur_shift cur0
  let msg_fmt := fc.1
  if msg_fmt &&& 0x90 = 0 then .fatal
  else
    let msg_arr_len := (msg_fmt + 256 - 0x90) % 256
    let mc := ltx_cur_shift fc.2
    let msg_type := mc.1
    if ¬ (msg_type ≤ 10) then .fatal
    else if ¬ arity_ok msg_type msg_arr_len then .fatal
    else
      match msg_type with
      | 0 => .ok (mc.2.pre ++ ltx_write_msg 1 [.num t]) mc.2 st
      | 2 =>
        if mc.2.post.length = 0 then .incomplete
        else process_env_msg st mc.2
      | 3 =>
        if mc.2.post.length = 0 then .incomplete
        else process_exec_msg st mc.2 (msg_arr_len - 1)
      | 6 =>
        if mc.2.post.length = 0 then .incomplete
        else process_get_file_msg st mc.2
      | 7 =>
        if mc.2.post.length = 0 then .incomplete
        else process_set_file_msg st mc.2 stdin_tail
      | 9 =>
        if mc.2.post.length = 0 then .incomplete
        else process_kill_msg st mc.2
      | 10 =>
        .ok (mc.2.pre ++ ltx_write_msg 4 [.nil, .num t, .str version_payload]) mc.2 st
      | _ => .fatal

/-! ## Output buffer and drain_write_buf -/

/-- struct ltx_buf for the output side: off, used, and the data array
(a list of BUFSIZ bytes; the claims only need off + used to stay within
it). -/
structure OutBuf where
  off : Nat
  used : Nat
  data : List Nat
deriving DecidableEq, Repr

/-- The not-yet-written buffered bytes: data[off .. off + used). -/
def OutBuf.buffered (b : OutBuf) : List Nat :=
  (b.data.drop b.off).take b.used

/-- One result of the write(2) call in drain_write_buf: either EAGAIN
on the non-blocking fd, or a count of bytes accepted. -/
inductive WriteRes where
  | eagain
  | wrote (k : Nat)

/-- The epilogue of drain_write_buf: memmove the unwritten bytes to the
front when any remain, and reset off to 0. -/
def drain_epilogue (b : OutBuf) : OutBuf :=
  if b.used ≠ 0 then
    ⟨0, b.used, (b.data.drop b.off).take b.used ++ b.data.drop b.used⟩
  else
    ⟨0, b.used, b.data⟩

/-- The write loop of drain_write_buf, consuming one WriteRes per
write(2) call.  Returns the final buffer, the blocked flag, and the
bytes handed to the output stream, or none when the modelled stream
behaviour list is exhausted before the loop exits or a result exceeds
the requested count (write never returns more than its count). -/
def drain_loop (b : OutBuf) : List WriteRes → Option (OutBuf × Bool × List Nat)
  | [] => if b.used = 0 then some (b, false, []) else none
  | r :: rs =>
    if b.used = 0 then some (b, false, [])
    else
      match r with
      | .eagain => some (b, true, [])
      | .wrote k =>
        if k ≤ b.used then
          match drain_loop ⟨b.off + k, b.used - k, b.data⟩ rs with
          | none => none
          | some (b1, blocked, sent) =>
            some (b1, blocked, (b.data.drop b.off).take k ++ sent)
        else none

/-- drain_write_buf from ltx.c: run the write loop against the given
stream behaviour, then compact the buffer and reset off. -/
def drain_write_buf (b : OutBuf) (w : List WriteRes) : Option (OutBuf × Bool × List Nat) :=
  match drain_loop b w with
  | none => none
  | some (b1, blocked, sent) => some (drain_epilogue b1, blocked, sent)

/-! ## Abstract inbound frames and their canonical encoding -/

/-- The inbound message types the executor understands, with their
type-specific fields.  The env slot is none for a nil table id. -/
inductive Frame where
  | ping
  | env (slot : Option Nat) (key val : List Nat)
  | exec (slot : Nat) (path : List Nat) (args : List (List Nat))
  | getFile (path : List Nat)
  | setFile (path blob : List Nat)
  | kill (slot : Nat)
  | version
deriving DecidableEq, Repr

/-- The wire object carrying an env slot id: nil or a fixint. -/
def slotObj : Option Nat → LtxObj
  | none => .nil
  | some s => .num s

/-- The canonical wire encoding of an inbound frame, built with the
same writer the executor uses for its own frames. -/
def encodeFrame : Frame → List Nat
  | .ping => ltx_write_msg 0 []
  | .env slot key val => ltx_write_msg 2 [slotObj slot, .str key, .str val]
  | .exec slot path args =>
    ltx_write_msg 3 ([.num slot, .str path] ++ args.map .str)
  | .getFile path => ltx_write_msg 6 [.str path]
  | .setFile path blob => ltx_write_msg 7 [.str path, .bin blob]
  | .kill slot => ltx_write_msg 9 [.num slot]
  | .version => ltx_write_msg 10 []

/-- Well-formedness of an inbound frame: slot ids in 0..126 (or nil
where Env allows it), at most 12 Exec argv-tail strings (so the frame
still fits a fixarray), and every string or blob shorter than 2^16
bytes, so each length field uses the fixstr/str8/str16 or bin8/bin16
form.  String values of 2^16 bytes or more cannot complete parsing in
the C (they would have to sit whole in the 8 KiB input buffer, which
is fatal), but a SetFile blob can reach 2^16 bytes because the splice
path streams it from stdin; its canonical bin32 length field is then
mis-decoded (the str32/bin32 width bug of ltx_read_str_size), and both
the echo and the stored file are corrupted.  Such frames are therefore
outside WellFormed and are treated separately as the failing region of
the echo and round-trip claims (c1_bin32_setfile_echo_differs,
c2_bin32_setfile_corrupts_file). -/
def WellFormed : Frame → Prop
  | .ping => True
  | .env slot key val =>
    (∀ s ∈ slot, s ≤ 126) ∧ key.length < 2 ^ 16 ∧ val.length < 2 ^ 16
  | .exec slot path args =>
    slot ≤ 126 ∧ path.length < 2 ^ 16 ∧ args.length ≤ 12 ∧
      ∀ a ∈ args, a.length < 2 ^ 16
  | .getFile path => path.length < 2 ^ 16
  | .setFile path blob => path.length < 2 ^ 16 ∧ blob.length < 2 ^ 16
  | .kill slot => slot ≤ 126
  | .version => True

instance : ∀ F : Frame, Decidable (WellFormed F) := by
  intro F
  cases F <;> simp only [WellFormed] <;> infer_instance

/-! ## Shape lemmas for the encoder -/

theorem write_number_array_fix (n : Nat) (h : n ≤ 15) :
    ltx_write_number .array_size n = [0x90 + n] := by
  simp only [ltx_write_number]
  rw [if_neg (by omega)]
  simp only [List.range_zero, List.map_nil]
  rw [Nat.mod_eq_of_lt (by omega)]

theorem write_number_str_fix (n : Nat) (h : n ≤ 31) :
    ltx_write_number .str_size n = [0xa0 + n] := by
  simp only [ltx_write_number]
  rw [if_neg (by omega), if_neg (by omega), if_neg (by omega)]
  simp only [List.range_zero, List.map_nil]
  rw [Nat.mod_eq_of_lt (by omega)]

theorem write_number_str8 (n : Nat) (h1 : 31 < n) (h2 : n < 2 ^ 8) :
    ltx_write_number .str_size n = [0xd9, n] := by
  simp only [ltx_write_number]
  rw [if_neg (by omega), if_neg (by omega), if_pos h1]
  have e0 : (n >>> (64 - 8 * (9 - 1 + 0))) % 256 = n := by
    rw [show 64 - 8 * (9 - 1 + 0) = 0 by norm_num, Nat.shiftRight_zero]
    omega
  simp only [show List.range 1 = [0] from rfl, List.map_cons, List.map_nil, e0]

theorem write_number_str16 (n : Nat) (h1 : 2 ^ 8 ≤ n) (h2 : n < 2 ^ 16) :
    ltx_write_number .str_size n = [0xda, n / 2 ^ 8, n % 2 ^ 8] := by
  simp only [ltx_write_number]
  rw [if_neg (by omega), if_pos (by omega)]
  have e0 : (n >>> (64 - 8 * (9 - 2 + 0))) % 256 = n / 2 ^ 8 := by
    rw [show 64 - 8 * (9 - 2 + 0) = 8 by norm_num, Nat.shiftRight_eq_div_pow]
    norm_num
    omega
  have e1 : (n >>> (64 - 8 * (9 - 2 + 1))) % 256 = n % 2 ^ 8 := by
    rw [show 64 - 8 * (9 - 2 + 1) = 0 by norm_num, Nat.shiftRight_zero]
    norm_num
  simp only [show List.range 2 = [0, 1] from rfl, List.map_cons, List.map_nil, e0, e1]

theorem write_number_bin8 (n : Nat) (h2 : n < 2 ^ 8) :
    ltx_write_number .bin_size n = [0xc4, n] := by
  simp only [ltx_write_number]
  rw [if_neg (by omega), if_neg (by omega)]
  have e0 : (n >>> (64 - 8 * (9 - 1 + 0))) % 256 = n := by
    rw [show 64 - 8 * (9 - 1 + 0) = 0 by norm_num, Nat.shiftRight_zero]
    omega
  simp only [show List.range 1 = [0] from rfl, List.map_cons, List.map_nil, e0]

theorem write_number_bin16 (n : Nat) (h1 : 2 ^ 8 ≤ n) (h2 : n < 2 ^ 16) :
    ltx_write_number .bin_size n = [0xc5, n / 2 ^ 8, n % 2 ^ 8] := by
  simp only [ltx_write_number]
  rw [if_neg (by omega), if_pos (by omega)]
  have e0 : (n >>> (64 - 8 * (9 - 2 + 0))) % 256 = n / 2 ^ 8 := by
    rw [show 64 - 8 * (9 - 2 + 0) = 8 by norm_num, Nat.shiftRight_eq_div_pow]
    norm_num
    omega
  have e1 : (n >>> (64 - 8 * (9 - 2 + 1))) % 256 = n % 2 ^ 8 := by
    rw [show 64 - 8 * (9 - 2 + 1) = 0 by norm_num, Nat.shiftRight_zero]
    norm_num
  simp only [show List.range 2 = [0, 1] from rfl, List.map_cons, List.map_nil, e0, e1]

theorem write_number_num_fix (n : Nat) (h : n < 2 ^ 7) :
    ltx_write_number .ind_num n = [n] := by
  simp only [ltx_write_number]
  rw [if_neg (by omega), if_neg (by omega), if_neg (by omega), if_neg (by omega)]
  simp only [List.range_zero, List.map_nil]
  rw [Nat.mod_eq_of_lt (by omega)]

/-! ## Decoder lemmas: reading back a canonically encoded value -/

theorem cur_shift_cons (pre : List Nat) (b : Nat) (post : List Nat) :
    ltx_cur_shift ⟨pre, b :: post⟩ = (b, ⟨pre ++ [b], post⟩) := rfl

theorem size_loop_nil (i res : Nat) : size_loop [] i res = res := rfl

theorem size_loop_cons (b : Nat) (bs : List Nat) (i res : Nat) :
    size_loop (b :: bs) i res = size_loop bs (i + 1) ((res <<< (8 * i)) + b) := rfl

/-- Reading back a canonical string-size header: the decoder returns
exactly the encoded length and consumes exactly the header bytes. -/
theorem read_str_size_enc_str (pre tail : List Nat) (n : Nat) (h : n < 2 ^ 16) :
    ltx_read_str_size ⟨pre, ltx_write_number .str_size n ++ tail⟩ =
      .ok n ⟨pre ++ ltx_write_number .str_size n, tail⟩ := by
  rcases Nat.lt_or_ge n 32 with h31 | h31
  · rw [write_number_str_fix n (by omega)]
    simp only [List.cons_append, List.nil_append, ltx_read_str_size, cur_shift_cons]
    rw [if_pos (by omega), Nat.add_sub_cancel_left]
  · rcases Nat.lt_or_ge n 256 with h255 | h255
    · rw [write_number_str8 n (by omega) (by omega)]
      simp only [List.cons_append, List.nil_append, ltx_read_str_size, cur_shift_cons]
      rw [if_neg (by omega), if_pos (by norm_num)]
      norm_num [ltx_read_size, ltx_cur_take, size_loop_cons, size_loop_nil,
        Nat.zero_shiftLeft]
    · rw [write_number_str16 n (by omega) h]
      simp only [List.cons_append, List.nil_append, ltx_read_str_size, cur_shift_cons]
      rw [if_neg (by omega), if_pos (by norm_num)]
      norm_num [ltx_read_size, ltx_cur_take, size_loop_cons, size_loop_nil,
        Nat.zero_shiftLeft, Nat.shiftLeft_eq]
      rw [if_neg (by omega)]
      simp only [SizeRes.ok.injEq, Cursor.mk.injEq, List.append_assoc]
      norm_num
      omega

/-- Reading back a canonical binary-size header. -/
theorem read_str_size_enc_bin (pre tail : List Nat) (n : Nat) (h : n < 2 ^ 16) :
    ltx_read_str_size ⟨pre, ltx_write_number .bin_size n ++ tail⟩ =
      .ok n ⟨pre ++ ltx_write_number .bin_size n, tail⟩ := by
  rcases Nat.lt_or_ge n 256 with h255 | h255
  · rw [write_number_bin8 n (by omega)]
    simp only [List.cons_append, List.nil_append, ltx_read_str_size, cur_shift_cons]
    rw [if_neg (by omega), if_neg (by omega), if_pos (by norm_num)]
    norm_num [ltx_read_size, ltx_cur_take, size_loop_cons, size_loop_nil,
      Nat.zero_shiftLeft]
  · rw [write_number_bin16 n (by omega) h]
    simp only [List.cons_append, List.nil_append, ltx_read_str_size, cur_shift_cons]
    rw [if_neg (by omega), if_neg (by omega), if_pos (by norm_num)]
    norm_num [ltx_read_size, ltx_cur_take, size_loop_cons, size_loop_nil,
      Nat.zero_shiftLeft, Nat.shiftLeft_eq]
    rw [if_neg (by omega)]
    simp only [SizeRes.ok.injEq, Cursor.mk.injEq, List.append_assoc]
    norm_num
    omega

/-- Reading back a canonically encoded string value. -/
theorem read_str_enc_str (pre rest : List Nat) (s : List Nat) (h : s.length < 2 ^ 16) :
    ltx_read_str ⟨pre, (ltx_write_number .str_size s.length ++ s) ++ rest⟩ =
      .ok s ⟨pre ++ ltx_write_number .str_size s.length ++ s, rest⟩ := by
  rw [List.append_assoc]
  simp only [ltx_read_str, read_str_size_enc_str pre (s ++ rest) s.length h]
  rw [if_neg (by simp only [List.length_append]; omega)]
  simp [ltx_cur_take, List.take_left, List.drop_left, List.append_assoc]

/-! ## Remaining encoder cases (uint8/16/32/64, str32, bin32, array16) -/

theorem write_number_num8 (n : Nat) (h1 : 2 ^ 7 ≤ n) (h2 : n < 2 ^ 8) :
    ltx_write_number .ind_num n = [0xcc, n] := by
  simp only [ltx_write_number]
  rw [if_neg (by omega), if_neg (by omega), if_neg (by omega), if_pos (by omega)]
  have e0 : (n >>> (64 - 8 * (9 - 1 + 0))) % 256 = n := by
    rw [show 64 - 8 * (9 - 1 + 0) = 0 by norm_num, Nat.shiftRight_zero]
    omega
  simp only [show List.range 1 = [0] from rfl, List.map_cons, List.map_nil, e0]

theorem write_number_num16 (n : Nat) (h1 : 2 ^ 8 ≤ n) (h2 : n < 2 ^ 16) :
    ltx_write_number .ind_num n = [0xcd, n / 2 ^ 8 % 2 ^ 8, n % 2 ^ 8] := by
  simp only [ltx_write_number]
  rw [if_neg (by omega), if_neg (by omega), if_pos (by omega)]
  have e0 : (n >>> (64 - 8 * (9 - 2 + 0))) % 256 = n / 2 ^ 8 % 2 ^ 8 := by
    rw [show 64 - 8 * (9 - 2 + 0) = 8 by norm_num, Nat.shiftRight_eq_div_pow]
    norm_num
  have e1 : (n >>> (64 - 8 * (9 - 2 + 1))) % 256 = n % 2 ^ 8 := by
    rw [show 64 - 8 * (9 - 2 + 1) = 0 by norm_num, Nat.shiftRight_zero]
    norm_num
  simp only [show List.range 2 = [0, 1] from rfl, List.map_cons, List.map_nil, e0, e1]

theorem write_number_num32 (n : Nat) (h1 : 2 ^ 16 ≤ n) (h2 : n < 2 ^ 32) :
    ltx_write_number .ind_num n =
      [0xce, n / 2 ^ 24 % 2 ^ 8, n / 2 ^ 16 % 2 ^ 8, n / 2 ^ 8 % 2 ^ 8, n % 2 ^ 8] := by
  simp only [ltx_write_number]
  rw [if_neg (by omega), if_pos (by omega)]
  have e0 : (n >>> (64 - 8 * (9 - 4 + 0))) % 256 = n / 2 ^ 24 % 2 ^ 8 := by
    rw [show 64 - 8 * (9 - 4 + 0) = 24 by norm_num, Nat.shiftRight_eq_div_pow]
    norm_num
  have e1 : (n >>> (64 - 8 * (9 - 4 + 1))) % 256 = n / 2 ^ 16 % 2 ^ 8 := by
    rw [show 64 - 8 * (9 - 4 + 1) = 16 by norm_num, Nat.shiftRight_eq_div_pow]
    norm_num
  have e2 : (n >>> (64 - 8 * (9 - 4 + 2))) % 256 = n / 2 ^ 8 % 2 ^ 8 := by
    rw [show 64 - 8 * (9 - 4 + 2) = 8 by norm_num, Nat.shiftRight_eq_div_pow]
    norm_num
  have e3 : (n >>> (64 - 8 * (9 - 4 + 3))) % 256 = n % 2 ^ 8 := by
    rw [show 64 - 8 * (9 - 4 + 3) = 0 by norm_num, Nat.shiftRight_zero]
    norm_num
  simp only [show List.range 4 = [0, 1, 2, 3] from rfl, List.map_cons, List.map_nil,
    e0, e1, e2, e3]

theorem write_number_num64 (n : Nat) (h1 : 2 ^ 32 ≤ n) :
    ltx_write_number .ind_num n =
      [0xcf, n / 2 ^ 56 % 2 ^ 8, n / 2 ^ 48 % 2 ^ 8, n / 2 ^ 40 % 2 ^ 8,
       n / 2 ^ 32 % 2 ^ 8, n / 2 ^ 24 % 2 ^ 8, n / 2 ^ 16 % 2 ^ 8,
       n / 2 ^ 8 % 2 ^ 8, n % 2 ^ 8] := by
  simp only [ltx_write_number]
  rw [if_pos (by omega)]
  have e0 : (n >>> (64 - 8 * (9 - 8 + 0))) % 256 = n / 2 ^ 56 % 2 ^ 8 := by
    rw [show 64 - 8 * (9 - 8 + 0) = 56 by norm_num, Nat.shiftRight_eq_div_pow]
    norm_num
  have e1 : (n >>> (64 - 8 * (9 - 8 + 1))) % 256 = n / 2 ^ 48 % 2 ^ 8 := by
    rw [show 64 - 8 * (9 - 8 + 1) = 48 by norm_num, Nat.shiftRight_eq_div_pow]
    norm_num
  have e2 : (n >>> (64 - 8 * (9 - 8 + 2))) % 256 = n / 2 ^ 40 % 2 ^ 8 := by
    rw [show 64 - 8 * (9 - 8 + 2) = 40 by norm_num, Nat.shiftRight_eq_div_pow]
    norm_num
  have e3 : (n >>> (64 - 8 * (9 - 8 + 3))) % 256 = n / 2 ^ 32 % 2 ^ 8 := by
    rw [show 64 - 8 * (9 - 8 + 3) = 32 by norm_num, Nat.shiftRight_eq_div_pow]
    norm_num
  have e4 : (n >>> (64 - 8 * (9 - 8 + 4))) % 256 = n / 2 ^ 24 % 2 ^ 8 := by
    rw [show 64 - 8 * (9 - 8 + 4) = 24 by norm_num, Nat.shiftRight_eq_div_pow]
    norm_num
  have e5 : (n >>> (64 - 8 * (9 - 8 + 5))) % 256 = n / 2 ^ 16 % 2 ^ 8 := by
    rw [show 64 - 8 * (9 - 8 + 5) = 16 by norm_num, Nat.shiftRight_eq_div_pow]
    norm_num
  have e6 : (n >>> (64 - 8 * (9 - 8 + 6))) % 256 = n / 2 ^ 8 % 2 ^ 8 := by
    rw [show 64 - 8 * (9 - 8 + 6) = 8 by norm_num, Nat.shiftRight_eq_div_pow]
    norm_num
  have e7 : (n >>> (64 - 8 * (9 - 8 + 7))) % 256 = n % 2 ^ 8 := by
    rw [show 64 - 8 * (9 - 8 + 7) = 0 by norm_num, Nat.shiftRight_zero]
    norm_num
  simp only [show List.range 8 = [0, 1, 2, 3, 4, 5, 6, 7] from rfl, List.map_cons,
    List.map_nil, e0, e1, e2, e3, e4, e5, e6, e7]

theorem write_number_str32 (n : Nat) (h1 : 2 ^ 16 ≤ n) (h2 : n < 2 ^ 32) :
    ltx_write_number .str_size n =
      [0xdb, n / 2 ^ 24 % 2 ^ 8, n / 2 ^ 16 % 2 ^ 8, n / 2 ^ 8 % 2 ^ 8, n % 2 ^ 8] := by
  simp only [ltx_write_number]
  rw [if_pos (by omega)]
  have e0 : (n >>> (64 - 8 * (9 - 4 + 0))) % 256 = n / 2 ^ 24 % 2 ^ 8 := by
    rw [show 64 - 8 * (9 - 4 + 0) = 24 by norm_num, Nat.shiftRight_eq_div_pow]
    norm_num
  have e1 : (n >>> (64 - 8 * (9 - 4 + 1))) % 256 = n / 2 ^ 16 % 2 ^ 8 := by
    rw [show 64 - 8 * (9 - 4 + 1) = 16 by norm_num, Nat.shiftRight_eq_div_pow]
    norm_num
  have e2 : (n >>> (64 - 8 * (9 - 4 + 2))) % 256 = n / 2 ^ 8 % 2 ^ 8 := by
    rw [show 64 - 8 * (9 - 4 + 2) = 8 by norm_num, Nat.shiftRight_eq_div_pow]
    norm_num
  have e3 : (n >>> (64 - 8 * (9 - 4 + 3))) % 256 = n % 2 ^ 8 := by
    rw [show 64 - 8 * (9 - 4 + 3) = 0 by norm_num, Nat.shiftRight_zero]
    norm_num
  simp only [show List.range 4 = [0, 1, 2, 3] from rfl, List.map_cons, List.map_nil,
    e0, e1, e2, e3]

theorem write_number_bin32 (n : Nat) (h1 : 2 ^ 16 ≤ n) (h2 : n < 2 ^ 32) :
    ltx_write_number .bin_size n =
      [0xc6, n / 2 ^ 24 % 2 ^ 8, n / 2 ^ 16 % 2 ^ 8, n / 2 ^ 8 % 2 ^ 8, n % 2 ^ 8] := by
  simp only [ltx_write_number]
  rw [if_pos (by omega)]
  have e0 : (n >>> (64 - 8 * (9 - 4 + 0))) % 256 = n / 2 ^ 24 % 2 ^ 8 := by
    rw [show 64 - 8 * (9 - 4 + 0) = 24 by norm_num, Nat.shiftRight_eq_div_pow]
    norm_num
  have e1 : (n >>> (64 - 8 * (9 - 4 + 1))) % 256 = n / 2 ^ 16 % 2 ^ 8 := by
    rw [show 64 - 8 * (9 - 4 + 1) = 16 by norm_num, Nat.shiftRight_eq_div_pow]
    norm_num
  have e2 : (n >>> (64 - 8 * (9 - 4 + 2))) % 256 = n / 2 ^ 8 % 2 ^ 8 := by
    rw [show 64 - 8 * (9 - 4 + 2) = 8 by norm_num, Nat.shiftRight_eq_div_pow]
    norm_num
  have e3 : (n >>> (64 - 8 * (9 - 4 + 3))) % 256 = n % 2 ^ 8 := by
    rw [show 64 - 8 * (9 - 4 + 3) = 0 by norm_num, Nat.shiftRight_zero]
    norm_num
  simp only [show List.range 4 = [0, 1, 2, 3] from rfl, List.map_cons, List.map_nil,
    e0, e1, e2, e3]

theorem write_number_array16 (n : Nat) (h1 : 15 < n) :
    ltx_write_number .array_size n = [0xdc, n / 2 ^ 8 % 2 ^ 8, n % 2 ^ 8] := by
  simp only [ltx_write_number]
  rw [if_pos h1]
  have e0 : (n >>> (64 - 8 * (9 - 2 + 0))) % 256 = n / 2 ^ 8 % 2 ^ 8 := by
    rw [show 64 - 8 * (9 - 2 + 0) = 8 by norm_num, Nat.shiftRight_eq_div_pow]
    norm_num
  have e1 : (n >>> (64 - 8 * (9 - 2 + 1))) % 256 = n % 2 ^ 8 := by
    rw [show 64 - 8 * (9 - 2 + 1) = 0 by norm_num, Nat.shiftRight_zero]
    norm_num
  simp only [show List.range 2 = [0, 1] from rfl, List.map_cons, List.map_nil, e0, e1]


/-! ## Claim C3: canonicality of accepted encodings -/

/-- C3 counterexample: the decoder accepts a str8 value whose length
(3) is at most 31, yielding the value instead of treating the
non-shortest encoding as a protocol violation. -/
theorem c3_nonshortest_accepted :
    ltx_read_str ⟨[], [0xd9, 3, 97, 98, 99]⟩ =
      .ok [97, 98, 99] ⟨[0xd9, 3, 97, 98, 99], []⟩ := by decide

/-- C3 amended: ltx_read_str_size and ltx_read_str perform no
shortest-encoding check.  A str8 header is accepted for any length
below 256 (including lengths at most 31, where fixstr would be
canonical), and a str16 or bin16 header with a zero high byte is also
accepted for lengths below 256; the decoder yields the value in every
case.  Only bytes outside the fixstr/str/bin tag families are rejected
(fatally). -/
theorem c3_decoder_accepts_wide (s rest : List Nat) (h : s.length < 2 ^ 8) :
    ltx_read_str ⟨[], 0xd9 :: s.length :: (s ++ rest)⟩ =
      .ok s ⟨0xd9 :: s.length :: s, rest⟩ ∧
    ltx_read_str ⟨[], 0xda :: 0 :: s.length :: (s ++ rest)⟩ =
      .ok s ⟨0xda :: 0 :: s.length :: s, rest⟩ ∧
    ltx_read_str ⟨[], 0xc5 :: 0 :: s.length :: (s ++ rest)⟩ =
      .ok s ⟨0xc5 :: 0 :: s.length :: s, rest⟩ := by
  refine ⟨?_, ?_, ?_⟩
  · simp only [ltx_read_str, ltx_read_str_size, cur_shift_cons]
    rw [if_neg (by omega), if_pos (by norm_num),
      if_neg (by simp only [List.length_cons, List.length_append]; omega)]
    simp only [ltx_read_size, ltx_cur_take, List.take_succ_cons, List.take_zero,
      List.drop_succ_cons, List.drop_zero, size_loop_cons, size_loop_nil,
      Nat.zero_shiftLeft, Nat.zero_add]
    rw [if_neg (by simp only [List.length_append]; omega)]
    simp [ltx_cur_take, List.take_left, List.drop_left]
  · simp only [ltx_read_str, ltx_read_str_size, cur_shift_cons]
    rw [if_neg (by omega), if_pos (by norm_num),
      if_neg (by simp only [List.length_cons, List.length_append]; omega)]
    simp only [ltx_read_size, ltx_cur_take, List.take_succ_cons, List.take_zero,
      List.drop_succ_cons, List.drop_zero, size_loop_cons, size_loop_nil,
      Nat.zero_shiftLeft, Nat.zero_add]
    rw [if_neg (by simp only [List.length_append]; omega)]
    simp [ltx_cur_take, List.take_left, List.drop_left]
  · simp only [ltx_read_str, ltx_read_str_size, cur_shift_cons]
    rw [if_neg (by omega), if_neg (by omega), if_pos (by norm_num),
      if_neg (by simp only [List.length_cons, List.length_append]; omega)]
    simp only [ltx_read_size, ltx_cur_take, List.take_succ_cons, List.take_zero,
      List.drop_succ_cons, List.drop_zero, size_loop_cons, size_loop_nil,
      Nat.zero_shiftLeft, Nat.zero_add]
    rw [if_neg (by simp only [List.length_append]; omega)]
    simp [ltx_cur_take, List.take_left, List.drop_left]

/-- C3 amended witness at the concrete string "a". -/
theorem c3_decoder_accepts_wide_witness :
    (([97] : List Nat).length < 2 ^ 8) ∧
    (ltx_read_str ⟨[], 0xd9 :: ([97] : List Nat).length :: ([97] ++ [])⟩ =
      .ok [97] ⟨0xd9 :: ([97] : List Nat).length :: [97], []⟩ ∧
     ltx_read_str ⟨[], 0xda :: 0 :: ([97] : List Nat).length :: ([97] ++ [])⟩ =
      .ok [97] ⟨0xda :: 0 :: ([97] : List Nat).length :: [97], []⟩ ∧
     ltx_read_str ⟨[], 0xc5 :: 0 :: ([97] : List Nat).length :: ([97] ++ [])⟩ =
      .ok [97] ⟨0xc5 :: 0 :: ([97] : List Nat).length :: [97], []⟩) :=
  ⟨by norm_num, c3_decoder_accepts_wide [97] [] (by norm_num)⟩

/-! ## Claim C4: big-endian length fields -/

/-- C4: a str32 header makes the decoder take 3 following bytes (not
4), and the decoded size is neither the big-endian value of the bytes
it consumed nor of the 4 bytes the claim says it should consume: on
input db 01 02 03 04 the code reads the bytes 01 02 03 and computes
16908291 (0x1020003), while big-endian over 01 02 03 is 66051 and over
01 02 03 04 is 16909060. -/
theorem c4_str32_not_big_endian :
    ltx_read_str_size ⟨[], [0xdb, 1, 2, 3, 4]⟩ =
      .ok 16908291 ⟨[0xdb, 1, 2, 3], [4]⟩ ∧
    big_endian_val [1, 2, 3] = 66051 ∧
    big_endian_val [1, 2, 3, 4] = 16909060 ∧
    (16908291 : Nat) ≠ 66051 ∧ (16908291 : Nat) ≠ 16909060 := by decide

/-- C4 companion: the one-byte and two-byte length fields (str8/str16
and bin8/bin16 tags) do decode to the big-endian value of exactly the
consumed bytes, for all byte values. -/
theorem c4_short_widths_big_endian (b0 b1 : Nat) (rest : List Nat) :
    ltx_read_str_size ⟨[], 0xd9 :: b0 :: rest⟩ =
      .ok (big_endian_val [b0]) ⟨[0xd9, b0], rest⟩ ∧
    ltx_read_str_size ⟨[], 0xda :: b0 :: b1 :: rest⟩ =
      .ok (big_endian_val [b0, b1]) ⟨[0xda, b0, b1], rest⟩ ∧
    ltx_read_str_size ⟨[], 0xc4 :: b0 :: rest⟩ =
      .ok (big_endian_val [b0]) ⟨[0xc4, b0], rest⟩ ∧
    ltx_read_str_size ⟨[], 0xc5 :: b0 :: b1 :: rest⟩ =
      .ok (big_endian_val [b0, b1]) ⟨[0xc5, b0, b1], rest⟩ := by
  refine ⟨?_, ?_, ?_, ?_⟩
  · simp only [ltx_read_str_size, cur_shift_cons]
    rw [if_neg (by omega), if_pos (by norm_num),
      if_neg (by simp only [List.length_cons]; omega)]
    simp only [ltx_read_size, ltx_cur_take, List.take_succ_cons, List.take_zero,
      List.drop_succ_cons, List.drop_zero, size_loop_cons, size_loop_nil,
      Nat.zero_shiftLeft, Nat.zero_add, big_endian_val, List.foldl_cons,
      List.foldl_nil]
    norm_num
  · simp only [ltx_read_str_size, cur_shift_cons]
    rw [if_neg (by omega), if_pos (by norm_num),
      if_neg (by simp only [List.length_cons]; omega)]
    simp only [ltx_read_size, ltx_cur_take, List.take_succ_cons, List.take_zero,
      List.drop_succ_cons, List.drop_zero, size_loop_cons, size_loop_nil,
      Nat.zero_shiftLeft, Nat.zero_add, Nat.shiftLeft_eq, big_endian_val,
      List.foldl_cons, List.foldl_nil]
    norm_num
  · simp only [ltx_read_str_size, cur_shift_cons]
    rw [if_neg (by omega), if_neg (by omega), if_pos (by norm_num),
      if_neg (by simp only [List.length_cons]; omega)]
    simp only [ltx_read_size, ltx_cur_take, List.take_succ_cons, List.take_zero,
      List.drop_succ_cons, List.drop_zero, size_loop_cons, size_loop_nil,
      Nat.zero_shiftLeft, Nat.zero_add, big_endian_val, List.foldl_cons,
      List.foldl_nil]
    norm_num
  · simp only [ltx_read_str_size, cur_shift_cons]
    rw [if_neg (by omega), if_neg (by omega), if_pos (by norm_num),
      if_neg (by simp only [List.length_cons]; omega)]
    simp only [ltx_read_size, ltx_cur_take, List.take_succ_cons, List.take_zero,
      List.drop_succ_cons, List.drop_zero, size_loop_cons, size_loop_nil,
      Nat.zero_shiftLeft, Nat.zero_add, Nat.shiftLeft_eq, big_endian_val,
      List.foldl_cons, List.foldl_nil]
    norm_num

/-! ## Claim C5: the encoder always selects the narrowest tag -/

/-- C5: for every value written into an emitted frame the encoder
selects the narrowest capable tag: positive fixint below 2^7, then
uint8/uint16/uint32/uint64 at byte boundaries; fixstr up to 31, then
str8/str16/str32; bin8/bin16/bin32 by length; fixarray up to 15, else
array16; each multi-byte length field in big-endian byte order. -/
theorem c5_narrowest_tag (n : Nat) :
    (n < 2 ^ 7 → ltx_write_number .ind_num n = [n]) ∧
    (2 ^ 7 ≤ n → n < 2 ^ 8 → ltx_write_number .ind_num n = [0xcc, n]) ∧
    (2 ^ 8 ≤ n → n < 2 ^ 16 → ltx_write_number .ind_num n =
      [0xcd, n / 2 ^ 8 % 2 ^ 8, n % 2 ^ 8]) ∧
    (2 ^ 16 ≤ n → n < 2 ^ 32 → ltx_write_number .ind_num n =
      [0xce, n / 2 ^ 24 % 2 ^ 8, n / 2 ^ 16 % 2 ^ 8, n / 2 ^ 8 % 2 ^ 8, n % 2 ^ 8]) ∧
    (2 ^ 32 ≤ n → ltx_write_number .ind_num n =
      [0xcf, n / 2 ^ 56 % 2 ^ 8, n / 2 ^ 48 % 2 ^ 8, n / 2 ^ 40 % 2 ^ 8,
       n / 2 ^ 32 % 2 ^ 8, n / 2 ^ 24 % 2 ^ 8, n / 2 ^ 16 % 2 ^ 8,
       n / 2 ^ 8 % 2 ^ 8, n % 2 ^ 8]) ∧
    (n ≤ 31 → ltx_write_number .str_size n = [0xa0 + n]) ∧
    (31 < n → n < 2 ^ 8 → ltx_write_number .str_size n = [0xd9, n]) ∧
    (2 ^ 8 ≤ n → n < 2 ^ 16 → ltx_write_number .str_size n =
      [0xda, n / 2 ^ 8, n % 2 ^ 8]) ∧
    (2 ^ 16 ≤ n → n < 2 ^ 32 → ltx_write_number .str_size n =
      [0xdb, n / 2 ^ 24 % 2 ^ 8, n / 2 ^ 16 % 2 ^ 8, n / 2 ^ 8 % 2 ^ 8, n % 2 ^ 8]) ∧
    (n < 2 ^ 8 → ltx_write_number .bin_size n = [0xc4, n]) ∧
    (2 ^ 8 ≤ n → n < 2 ^ 16 → ltx_write_number .bin_size n =
      [0xc5, n / 2 ^ 8, n % 2 ^ 8]) ∧
    (2 ^ 16 ≤ n → n < 2 ^ 32 → ltx_write_number .bin_size n =
      [0xc6, n / 2 ^ 24 % 2 ^ 8, n / 2 ^ 16 % 2 ^ 8, n / 2 ^ 8 % 2 ^ 8, n % 2 ^ 8]) ∧
    (n ≤ 15 → ltx_write_number .array_size n = [0x90 + n]) ∧
    (15 < n → ltx_write_number .array_size n = [0xdc, n / 2 ^ 8 % 2 ^ 8, n % 2 ^ 8]) :=
  ⟨fun h => write_number_num_fix n h,
   fun h1 h2 => write_number_num8 n h1 h2,
   fun h1 h2 => write_number_num16 n h1 h2,
   fun h1 h2 => write_number_num32 n h1 h2,
   fun h1 => write_number_num64 n h1,
   fun h => write_number_str_fix n h,
   fun h1 h2 => write_number_str8 n h1 h2,
   fun h1 h2 => write_number_str16 n h1 h2,
   fun h1 h2 => write_number_str32 n h1 h2,
   fun h2 => write_number_bin8 n h2,
   fun h1 h2 => write_number_bin16 n h1 h2,
   fun h1 h2 => write_number_bin32 n h1 h2,
   fun h => write_number_array_fix n h,
   fun h1 => write_number_array16 n h1⟩

/-- C5 witness: the narrowest-tag theorem applied at one value per
encoder family: 200 (uint8), 40 (str8), 5 (bin8) and 3 (fixarray). -/
theorem c5_narrowest_tag_witness :
    ltx_write_number .ind_num 200 = [0xcc, 200] ∧
    ltx_write_number .str_size 40 = [0xd9, 40] ∧
    ltx_write_number .bin_size 5 = [0xc4, 5] ∧
    ltx_write_number .array_size 3 = [0x90 + 3] :=
  ⟨(c5_narrowest_tag 200).2.1 (by norm_num) (by norm_num),
   (c5_narrowest_tag 40).2.2.2.2.2.2.1 (by norm_num) (by norm_num),
   (c5_narrowest_tag 5).2.2.2.2.2.2.2.2.2.1 (by norm_num),
   (c5_narrowest_tag 3).2.2.2.2.2.2.2.2.2.2.2.2.1 (by norm_num)⟩

/-! ## Claim C6: slot id validation -/

/-- C6: the Exec and Kill handlers reject slot id 127 fatally, and
slot ids up to 126 pass all three validations, but the Env handler
accepts slot id 127 (its assert is table_id == nil or table_id < 128)
and proceeds to read and modify the slot table at index 127, one past
the last entry of the 127-element childs array: processing the Env
frame 94 02 7f a1 6b a1 76 (slot 127, key k, value v) completes and
echoes the frame instead of aborting. -/
theorem c6_env_slot_127_accepted :
    env_slot_ok 127 = true ∧
    exec_slot_ok 127 = false ∧
    kill_slot_ok 127 = false ∧
    env_slot_ok 126 = true ∧ exec_slot_ok 126 = true ∧ kill_slot_ok 126 = true ∧
    (process_one st0 0 [0x94, 0x02, 0x7f, 0xa1, 0x6b, 0xa1, 0x76] []).out? =
      some [0x94, 0x02, 0x7f, 0xa1, 0x6b, 0xa1, 0x76] ∧
    (process_one st0 0 [0x93, 0x03, 0x7f, 0xa1, 0x6b] []).isFatal = true ∧
    (process_one st0 0 [0x92, 0x09, 0x7f] []).isFatal = true := by decide

/-! ## Claim C7: arity validation -/

/-- C7 counterexample: an Exec frame with array length 15 (outside the
claimed range 3..14) passes the arity validation of process_msgs
instead of being fatal. -/
theorem c7_exec_arity_15_accepted :
    arity_ok 3 15 = true ∧ ¬ (3 ≤ 15 ∧ 15 ≤ 14) := by decide

/-- C7 amended: the Exec arity check is only the lower bound
msg_arr_len > 2 (so 3..15 all pass, 15 being the fixarray maximum of
slot id, path and 12 argv-tail strings); every other inbound type has
its exact arity enforced (Ping and Version 1, GetFile and Kill 2,
SetFile 3, Env 4), and the outbound-only types Pong, Log, Result and
Data are always fatal. -/
theorem c7_arity_table (n : Nat) :
    (arity_ok 0 n = true ↔ n = 1) ∧
    (arity_ok 2 n = true ↔ n = 4) ∧
    (arity_ok 3 n = true ↔ 3 ≤ n) ∧
    (arity_ok 6 n = true ↔ n = 2) ∧
    (arity_ok 7 n = true ↔ n = 3) ∧
    (arity_ok 9 n = true ↔ n = 2) ∧
    (arity_ok 10 n = true ↔ n = 1) ∧
    arity_ok 1 n = false ∧ arity_ok 4 n = false ∧
    arity_ok 5 n = false ∧ arity_ok 8 n = false := by
  refine ⟨?_, ?_, ?_, ?_, ?_, ?_, ?_, ?_, ?_, ?_, ?_⟩ <;>
    simp only [arity_ok, beq_iff_eq, decide_eq_true_eq] <;> omega

/-! ## Claim C8: env key deduplication and value replacement -/

/-- C8: after Env(s, k, "vv"), Env(s, a, "a"), Env(s, b, "b") and the
length-changing replacement Env(s, k, "wwww"), the overlay applied by
a subsequent Exec maps k to "wwww" exactly once, but b now maps to
"a": the replacement memmoves the packed values yet only updates
env_vsv[i + 1], so the stored value offset of the second key after k
is stale.  The claim expects b to keep "b". -/
theorem c8_env_replacement_corrupts_later_value :
    ((envUpdate emptyChild [107] [118, 118]).bind fun c1 =>
     (envUpdate c1 [97] [97]).bind fun c2 =>
     (envUpdate c2 [98] [98]).bind fun c3 =>
     (envUpdate c3 [107] [119, 119, 119, 119]).map applied_env) =
      some [([107], [119, 119, 119, 119]), ([97], [97]), ([98], [97])] ∧
    (([98], [97]) : List Nat × List Nat) ≠ ([98], [98]) := by decide

/-! ## Claim C9: the Version response -/

/-- C9 counterexample: processing Version (91 0a) emits the echo and a
nil-slot Log frame, but the Log text is the 21 characters of
"LTX Version=0.0.1-dev" followed by one NUL byte (the C passes
sizeof("LTX Version=" VERSION), which counts the literal terminator),
not the bare text the claim requires. -/
theorem c9_version_payload_has_nul :
    (process_one st0 0 [0x91, 0x0a] []).out? =
      some ([0x91, 0x0a] ++ ltx_write_msg 4 [.nil, .num 0, .str version_payload]) ∧
    version_payload = version_str ++ [0] ∧
    (process_one st0 0 [0x91, 0x0a] []).out? ≠
      some ([0x91, 0x0a] ++ ltx_write_msg 4 [.nil, .num 0, .str version_str]) := by
  decide

/-- C9 amended: for every state, timestamp and pending input,
processing a Version frame appends exactly the echo 91 0a followed by
a Log frame with nil slot whose string payload is the text
"LTX Version=0.0.1-dev" plus one trailing NUL byte (payload length
22). -/
theorem c9_version_response (st : St) (t : Nat) (tail : List Nat) :
    (process_one st t [0x91, 0x0a] tail).out? =
      some ([0x91, 0x0a] ++ ltx_write_msg 4 [.nil, .num t, .str version_payload]) ∧
    version_payload = version_str ++ [0] ∧
    version_payload.length = 22 := by
  exact ⟨rfl, rfl, rfl⟩

/-! ## Claim C10: drain_write_buf -/

theorem drain_loop_spec (w : List WriteRes) :
    ∀ (b b1 : OutBuf) (blocked : Bool) (sent : List Nat),
      drain_loop b w = some (b1, blocked, sent) →
      b1.data = b.data ∧ b1.used ≤ b.used ∧ b1.off = b.off + (b.used - b1.used) ∧
      sent ++ b1.buffered = b.buffered := by
  induction w with
  | nil =>
    intro b b1 blocked sent h
    unfold drain_loop at h
    split at h
    · simp only [Option.some.injEq, Prod.mk.injEq] at h
      obtain ⟨hb, _, hs⟩ := h
      subst hb
      subst hs
      simp
    · exact absurd h (by simp)
  | cons r rs ih =>
    intro b b1 blocked sent h
    unfold drain_loop at h
    split at h
    · simp only [Option.some.injEq, Prod.mk.injEq] at h
      obtain ⟨hb, _, hs⟩ := h
      subst hb
      subst hs
      simp
    · rename_i hu
      split at h
      · simp only [Option.some.injEq, Prod.mk.injEq] at h
        obtain ⟨hb, _, hs⟩ := h
        subst hb
        subst hs
        simp
      · rename_i k
        split at h
        · rename_i hk
          split at h
          · exact absurd h (by simp)
          · rename_i b2 blocked2 sent2 hrec
            simp only [Option.some.injEq, Prod.mk.injEq] at h
            obtain ⟨hb, hbl, hs⟩ := h
            subst hb
            subst hs
            obtain ⟨hd, hu2, ho2, hsent⟩ := ih _ _ _ _ hrec
            simp only at hd hu2 ho2 hsent
            refine ⟨hd, by omega, by omega, ?_⟩
            rw [List.append_assoc, hsent]
            show (b.data.drop b.off).take k ++
                OutBuf.buffered ⟨b.off + k, b.used - k, b.data⟩ = b.buffered
            unfold OutBuf.buffered
            simp only
            have hdd : b.data.drop (b.off + k) = (b.data.drop b.off).drop k := by
              rw [List.drop_drop]
            rw [hdd, ← List.take_add]
            congr 1
            omega
        · exact absurd h (by simp)

/-- C10: drain_write_buf always leaves the output buffer with offset 0
and its unwritten bytes moved to the front of the data array; the
buffered byte sequence after the call is the buffered sequence before
the call minus the prefix that was written to the stream, whether or
not the stream blocked with EAGAIN partway. -/
theorem c10_drain_write_buf (b : OutBuf) (w : List WriteRes) (b1 : OutBuf)
    (blocked : Bool) (sent : List Nat)
    (hlen : b.off + b.used ≤ b.data.length)
    (h : drain_write_buf b w = some (b1, blocked, sent)) :
    b1.off = 0 ∧ sent ++ b1.buffered = b.buffered ∧
      b1.buffered = b1.data.take b1.used := by
  unfold drain_write_buf at h
  split at h
  · exact absurd h (by simp)
  · rename_i b2 blocked2 sent2 hloop
    simp only [Option.some.injEq, Prod.mk.injEq] at h
    obtain ⟨hb, _, hs⟩ := h
    subst hs
    subst hb
    obtain ⟨hd, hu, ho, hsent⟩ := drain_loop_spec w b b2 blocked2 sent2 hloop
    have hlen2 : b2.off + b2.used ≤ b2.data.length := by
      rw [hd]
      omega
    have hoff : (drain_epilogue b2).off = 0 := by
      unfold drain_epilogue
      split
      · rfl
      · rfl
    have hfront : (drain_epilogue b2).buffered = b2.buffered := by
      unfold drain_epilogue OutBuf.buffered
      by_cases hz : b2.used = 0
      · rw [if_neg (by omega)]
        simp [hz]
      · rw [if_pos hz]
        simp only [List.drop_zero]
        have hlenb : ((b2.data.drop b2.off).take b2.used).length = b2.used := by
          rw [List.length_take, List.length_drop]
          omega
        exact List.take_left' hlenb
    have hdata : (drain_epilogue b2).buffered =
        (drain_epilogue b2).data.take (drain_epilogue b2).used := by
      unfold OutBuf.buffered
      rw [hoff, List.drop_zero]
    exact ⟨hoff, by rw [hfront, hsent], hdata⟩

/-- C10 witness: a concrete drain with a partial write followed by
EAGAIN: buffer off 1, used 3, data 9 5 6 7; the stream accepts 2 bytes
then blocks; afterwards the buffer holds the single unwritten byte 7
at the front with off 0. -/
theorem c10_drain_write_buf_witness :
    (⟨0, 1, [7, 5, 6, 7]⟩ : OutBuf).off = 0 ∧
    [5, 6] ++ OutBuf.buffered ⟨0, 1, [7, 5, 6, 7]⟩ =
      OutBuf.buffered ⟨1, 3, [9, 5, 6, 7]⟩ ∧
    OutBuf.buffered ⟨0, 1, [7, 5, 6, 7]⟩ =
      (⟨0, 1, [7, 5, 6, 7]⟩ : OutBuf).data.take (⟨0, 1, [7, 5, 6, 7]⟩ : OutBuf).used :=
  c10_drain_write_buf ⟨1, 3, [9, 5, 6, 7]⟩ [.wrote 2, .eagain]
    ⟨0, 1, [7, 5, 6, 7]⟩ true [5, 6] (by decide) (by decide)

def enc_str (s : List Nat) : List Nat := ltx_write_number .str_size s.length ++ s

theorem read_str_enc (pre rest : List Nat) (s : List Nat) (h : s.length < 2 ^ 16) :
    ltx_read_str ⟨pre, enc_str s ++ rest⟩ = .ok s ⟨pre ++ enc_str s, rest⟩ := by
  have := read_str_enc_str pre rest s h
  simpa [enc_str, List.append_assoc] using this

theorem process_one_ping (st : St) (t : Nat) (rest tail : List Nat) :
    process_one st t (0x91 :: 0x00 :: rest) tail =
      .ok ([0x91, 0x00] ++ ltx_write_msg 1 [.num t]) ⟨[0x91, 0x00], rest⟩ st := by
  simp [process_one, ltx_cur_shift, arity_ok]

theorem process_one_version (st : St) (t : Nat) (rest tail : List Nat) :
    process_one st t (0x91 :: 0x0a :: rest) tail =
      .ok ([0x91, 0x0a] ++ ltx_write_msg 4 [.nil, .num t, .str version_payload])
        ⟨[0x91, 0x0a], rest⟩ st := by
  simp [process_one, ltx_cur_shift, arity_ok]

theorem process_one_env (st : St) (t : Nat) (b : Nat) (post tail : List Nat) :
    process_one st t (0x94 :: 0x02 :: b :: post) tail =
      process_env_msg st ⟨[0x94, 0x02], b :: post⟩ := by
  simp [process_one, ltx_cur_shift, arity_ok]

theorem process_one_get_file (st : St) (t : Nat) (post tail : List Nat)
    (hpost : post ≠ []) :
    process_one st t (0x92 :: 0x06 :: post) tail =
      process_get_file_msg st ⟨[0x92, 0x06], post⟩ := by
  simp [process_one, ltx_cur_shift, arity_ok, List.length_eq_zero, hpost]

theorem process_one_set_file (st : St) (t : Nat) (post tail : List Nat)
    (hpost : post ≠ []) :
    process_one st t (0x93 :: 0x07 :: post) tail =
      process_set_file_msg st ⟨[0x93, 0x07], post⟩ tail := by
  simp [process_one, ltx_cur_shift, arity_ok, List.length_eq_zero, hpost]

theorem process_one_kill (st : St) (t : Nat) (b : Nat) (post tail : List Nat) :
    process_one st t (0x92 :: 0x09 :: b :: post) tail =
      process_kill_msg st ⟨[0x92, 0x09], b :: post⟩ := by
  simp [process_one, ltx_cur_shift, arity_ok]

theorem process_one_exec (st : St) (t : Nat) (k b : Nat) (post tail : List Nat)
    (h3 : 3 ≤ k) (h15 : k ≤ 15) :
    process_one st t ((0x90 + k) :: 0x03 :: b :: post) tail =
      process_exec_msg st ⟨[0x90 + k, 0x03], b :: post⟩ (k - 1) := by
  interval_cases k <;> simp [process_one, ltx_cur_shift, arity_ok]

theorem process_env_msg_enc (st : St) (s : Nat) (key val rest : List Nat)
    (hs : s ≤ 126) (hk : key.length < 2 ^ 16) (hv : val.length < 2 ^ 16) :
    process_env_msg st ⟨[0x94, 0x02], s :: (enc_str key ++ (enc_str val ++ rest))⟩ =
      if ¬ (key.length ≠ 0 ∧ key.length < 256) then .fatal
      else if ¬ (val.length < PATH_MAX) then .fatal
      else
        match envUpdate (st.childs s) key val with
        | none => .fatal
        | some ch =>
          .ok (0x94 :: 0x02 :: s :: (enc_str key ++ enc_str val))
            ⟨0x94 :: 0x02 :: s :: (enc_str key ++ enc_str val), rest⟩
            { st with childs := fun i => if i = s then ch else st.childs i } := by
  unfold process_env_msg
  rw [cur_shift_cons]
  simp only
  rw [if_neg (by simp [enc_str, ltx_write_number]),
    if_neg (by simp [env_slot_ok]; omega)]
  rw [read_str_enc ([0x94, 0x02] ++ [s]) (enc_str val ++ rest) key hk]
  simp only
  rw [read_str_enc ([0x94, 0x02] ++ [s] ++ enc_str key) rest val hv]
  simp only
  rw [if_neg (by omega : ¬ s = 0xc0)]
  simp [List.append_assoc]

theorem process_env_msg_nil_enc (st : St) (key val rest : List Nat)
    (hk : key.length < 2 ^ 16) (hv : val.length < 2 ^ 16) :
    process_env_msg st ⟨[0x94, 0x02], 0xc0 :: (enc_str key ++ (enc_str val ++ rest))⟩ =
      if ¬ (key.length ≠ 0 ∧ key.length < 256) then .fatal
      else if ¬ (val.length < PATH_MAX) then .fatal
      else
        .ok (0x94 :: 0x02 :: 0xc0 :: (enc_str key ++ enc_str val))
          ⟨0x94 :: 0x02 :: 0xc0 :: (enc_str key ++ enc_str val), rest⟩
          { st with genv := fun k => if k = key then some val else st.genv k } := by
  unfold process_env_msg
  rw [cur_shift_cons]
  simp only
  rw [if_neg (by simp [enc_str, ltx_write_number]),
    if_neg (by simp [env_slot_ok])]
  rw [read_str_enc ([0x94, 0x02] ++ [0xc0]) (enc_str val ++ rest) key hk]
  simp only
  rw [read_str_enc ([0x94, 0x02] ++ [0xc0] ++ enc_str key) rest val hv]
  simp [List.append_assoc]

theorem process_kill_msg_enc (st : St) (s : Nat) (rest : List Nat) (hs : s ≤ 126) :
    process_kill_msg st ⟨[0x92, 0x09], s :: rest⟩ =
      .ok [0x92, 0x09, s] ⟨[0x92, 0x09, s], rest⟩ st := by
  unfold process_kill_msg
  rw [cur_shift_cons]
  simp only
  rw [if_neg (by simp [kill_slot_ok]; omega)]
  simp

theorem process_get_file_msg_enc (st : St) (path rest : List Nat)
    (hp : path.length < 2 ^ 16) :
    process_get_file_msg st ⟨[0x92, 0x06], enc_str path ++ rest⟩ =
      match st.fs path with
      | none => .fatal
      | some content =>
        if content.length ≥ 0x7ffff000 then .fatal
        else
          .ok ((0x92 :: 0x06 :: enc_str path) ++
              ltx_write_msg 8 [.binN content.length] ++ content)
            ⟨0x92 :: 0x06 :: enc_str path, rest⟩ st := by
  unfold process_get_file_msg
  rw [read_str_enc [0x92, 0x06] rest path hp]
  simp [List.append_assoc]

def enc_strs (ss : List (List Nat)) : List Nat := (ss.map enc_str).flatten

theorem read_strs_enc (ss : List (List Nat)) :
    ∀ pre rest, (∀ x ∈ ss, x.length < 2 ^ 16) →
      read_strs ⟨pre, enc_strs ss ++ rest⟩ ss.length =
        .ok [] ⟨pre ++ enc_strs ss, rest⟩ := by
  induction ss with
  | nil =>
    intro pre rest _
    simp [enc_strs, read_strs]
  | cons x xs ih =>
    intro pre rest h
    show read_strs _ (xs.length + 1) = _
    unfold read_strs
    have hx : enc_strs (x :: xs) ++ rest = enc_str x ++ (enc_strs xs ++ rest) := by
      simp [enc_strs, List.append_assoc]
    rw [hx, read_str_enc pre (enc_strs xs ++ rest) x (h x (by simp))]
    simp only
    rw [ih (pre ++ enc_str x) rest (fun y hy => h y (by simp [hy]))]
    simp [enc_strs, List.append_assoc]

theorem process_exec_msg_enc (st : St) (pre : List Nat) (s : Nat)
    (ss : List (List Nat)) (rest : List Nat)
    (hs : s ≤ 126) (hlen : ss.length ≤ 13) (hne : ss ≠ [])
    (hss : ∀ x ∈ ss, x.length < 2 ^ 16) :
    process_exec_msg st ⟨pre, s :: (enc_strs ss ++ rest)⟩ (ss.length + 1) =
      .ok (pre ++ s :: enc_strs ss) ⟨pre ++ s :: enc_strs ss, rest⟩ st := by
  unfold process_exec_msg
  rw [cur_shift_cons]
  simp only
  rw [if_neg (by simp [exec_slot_ok]; omega), if_neg (by omega)]
  rw [if_neg ?hpost]
  case hpost =>
    cases ss with
    | nil => exact absurd rfl hne
    | cons x xs => simp [enc_strs, enc_str, ltx_write_number]
  rw [show ss.length + 1 - 1 = ss.length by omega]
  rw [read_strs_enc ss (pre ++ [s]) rest hss]
  simp [List.append_assoc]

theorem process_set_file_msg_enc (st : St) (path blob rest tail : List Nat)
    (hp : path.length < 2 ^ 16) (hb : blob.length < 2 ^ 16) :
    process_set_file_msg st
      ⟨[0x93, 0x07],
        enc_str path ++ (ltx_write_number .bin_size blob.length ++ (blob ++ rest))⟩ tail =
      .ok (0x93 :: 0x07 :: (enc_str path ++ ltx_write_number .bin_size blob.length ++ blob))
        ⟨0x93 :: 0x07 :: (enc_str path ++ ltx_write_number .bin_size blob.length ++ blob), rest⟩
        { st with fs := fun p => if p = path then some blob else st.fs p } := by
  unfold process_set_file_msg
  rw [read_str_enc [0x93, 0x07]
    (ltx_write_number .bin_size blob.length ++ (blob ++ rest)) path hp]
  simp only
  rw [if_neg (by simp [ltx_write_number])]
  rw [read_str_size_enc_bin ([0x93, 0x07] ++ enc_str path) (blob ++ rest) blob.length hb]
  simp only
  have hmin : min (blob ++ rest).length blob.length = blob.length := by
    simp [List.length_append]
  rw [hmin]
  simp only [ltx_cur_take, List.take_left, List.drop_left, Nat.sub_self,
    List.take_zero, List.append_nil, List.take_length]
  simp only [ltx_write_msg, List.map_cons, List.map_nil, ltx_write_obj,
    List.flatten, List.append_nil]
  rw [show ([LtxObj.str path, LtxObj.binN blob.length] : List LtxObj).length + 1 = 3
    from rfl]
  rw [write_number_array_fix 3 (by norm_num)]
  simp [enc_str, List.append_assoc]

/-! ## Canonical byte shapes of encoded inbound frames -/

theorem write_obj_str_eq (a : List Nat) : ltx_write_obj (.str a) = enc_str a := rfl

theorem write_obj_comp_str : ltx_write_obj ∘ LtxObj.str = enc_str := rfl

theorem map_write_obj_str (args : List (List Nat)) :
    (args.map LtxObj.str).map ltx_write_obj = args.map enc_str := by
  rw [List.map_map]
  rfl

theorem encodeFrame_ping : encodeFrame .ping = [0x91, 0x00] := by decide

theorem encodeFrame_version : encodeFrame .version = [0x91, 0x0a] := by decide

theorem encodeFrame_env_some (s : Nat) (key val : List Nat) (hs : s < 2 ^ 7) :
    encodeFrame (.env (some s) key val) =
      0x94 :: 0x02 :: s :: (enc_str key ++ enc_str val) := by
  simp only [encodeFrame, ltx_write_msg]
  rw [show ([slotObj (some s), LtxObj.str key, LtxObj.str val] : List LtxObj).length + 1 = 4
    from rfl]
  rw [write_number_array_fix 4 (by norm_num)]
  simp [slotObj, ltx_write_obj, enc_str, write_number_num_fix s hs, List.append_assoc]

theorem encodeFrame_env_nil (key val : List Nat) :
    encodeFrame (.env none key val) =
      0x94 :: 0x02 :: 0xc0 :: (enc_str key ++ enc_str val) := by
  simp only [encodeFrame, ltx_write_msg]
  rw [show ([slotObj none, LtxObj.str key, LtxObj.str val] : List LtxObj).length + 1 = 4
    from rfl]
  rw [write_number_array_fix 4 (by norm_num)]
  simp [slotObj, ltx_write_obj, enc_str, List.append_assoc]

theorem encodeFrame_exec (s : Nat) (path : List Nat) (args : List (List Nat))
    (hs : s < 2 ^ 7) (hlen : args.length ≤ 12) :
    encodeFrame (.exec s path args) =
      (0x90 + (args.length + 3)) :: 0x03 :: s :: enc_strs (path :: args) := by
  simp only [encodeFrame, ltx_write_msg]
  rw [show (([LtxObj.num s, LtxObj.str path] ++ args.map LtxObj.str) : List LtxObj).length + 1 =
    args.length + 3 by simp]
  rw [write_number_array_fix (args.length + 3) (by omega)]
  simp [ltx_write_obj, enc_strs, write_number_num_fix s hs,
    map_write_obj_str, write_obj_comp_str, List.append_assoc, enc_str]

theorem encodeFrame_get_file (path : List Nat) :
    encodeFrame (.getFile path) = 0x92 :: 0x06 :: enc_str path := by
  simp only [encodeFrame, ltx_write_msg]
  rw [show ([LtxObj.str path] : List LtxObj).length + 1 = 2 from rfl]
  rw [write_number_array_fix 2 (by norm_num)]
  simp [ltx_write_obj, enc_str]

theorem encodeFrame_set_file (path blob : List Nat) :
    encodeFrame (.setFile path blob) =
      0x93 :: 0x07 :: (enc_str path ++ (ltx_write_number .bin_size blob.length ++ blob)) := by
  simp only [encodeFrame, ltx_write_msg]
  rw [show ([LtxObj.str path, LtxObj.bin blob] : List LtxObj).length + 1 = 3 from rfl]
  rw [write_number_array_fix 3 (by norm_num)]
  simp [ltx_write_obj, enc_str, List.append_assoc]

theorem encodeFrame_kill (s : Nat) (hs : s < 2 ^ 7) :
    encodeFrame (.kill s) = [0x92, 0x09, s] := by
  simp only [encodeFrame, ltx_write_msg]
  rw [show ([LtxObj.num s] : List LtxObj).length + 1 = 2 from rfl]
  rw [write_number_array_fix 2 (by norm_num)]
  simp [ltx_write_obj, write_number_num_fix s hs]

theorem enc_str_ne_nil (s : List Nat) : enc_str s ≠ [] := by
  simp [enc_str, ltx_write_number]

/-! ## Claim C1: the echo law -/

/-- C1 amended: for every well-formed inbound frame the executor
understands whose string and binary values are shorter than 2^16 bytes
(every length field in the one- or two-byte form), whenever the
dispatcher completes the frame (result ok), the bytes it appends to
the output stream begin with the byte-identical canonical encoding of
that frame, any derived response frames coming only after that echo.
The unrestricted claim is false: for a canonical bin32 SetFile frame
the mis-decoded length field makes the appended bytes diverge from the
frame inside the blob (c1_bin32_setfile_echo_differs). -/
theorem c1_echo_law (F : Frame) (st : St) (t : Nat) (rest stdin_tail : List Nat)
    (out : List Nat) (cur : Cursor) (st1 : St)
    (hwf : WellFormed F)
    (h : process_one st t (encodeFrame F ++ rest) stdin_tail = .ok out cur st1) :
    ∃ resp, out = encodeFrame F ++ resp := by
  cases F with
  | ping =>
    rw [encodeFrame_ping] at h ⊢
    rw [show ([0x91, 0x00] : List Nat) ++ rest = 0x91 :: 0x00 :: rest from rfl] at h
    rw [process_one_ping] at h
    simp only [PRes.ok.injEq] at h
    exact ⟨ltx_write_msg 1 [.num t], h.1.symm⟩
  | version =>
    rw [encodeFrame_version] at h ⊢
    rw [show ([0x91, 0x0a] : List Nat) ++ rest = 0x91 :: 0x0a :: rest from rfl] at h
    rw [process_one_version] at h
    simp only [PRes.ok.injEq] at h
    exact ⟨ltx_write_msg 4 [.nil, .num t, .str version_payload], h.1.symm⟩
  | env slot key val =>
    obtain ⟨hslot, hk, hv⟩ := hwf
    cases slot with
    | none =>
      rw [encodeFrame_env_nil] at h ⊢
      rw [show (0x94 :: 0x02 :: 0xc0 :: (enc_str key ++ enc_str val)) ++ rest =
        0x94 :: 0x02 :: 0xc0 :: (enc_str key ++ (enc_str val ++ rest)) by
          simp [List.append_assoc]] at h
      rw [process_one_env, process_env_msg_nil_enc st key val rest hk hv] at h
      split at h
      · exact absurd h (by simp)
      split at h
      · exact absurd h (by simp)
      simp only [PRes.ok.injEq] at h
      refine ⟨[], ?_⟩
      rw [← h.1]
      simp
    | some s =>
      have hs : s ≤ 126 := hslot s rfl
      rw [encodeFrame_env_some s key val (by omega)] at h ⊢
      rw [show (0x94 :: 0x02 :: s :: (enc_str key ++ enc_str val)) ++ rest =
        0x94 :: 0x02 :: s :: (enc_str key ++ (enc_str val ++ rest)) by
          simp [List.append_assoc]] at h
      rw [process_one_env, process_env_msg_enc st s key val rest hs hk hv] at h
      split at h
      · exact absurd h (by simp)
      split at h
      · exact absurd h (by simp)
      split at h
      · exact absurd h (by simp)
      · simp only [PRes.ok.injEq] at h
        refine ⟨[], ?_⟩
        rw [← h.1]
        simp
  | exec s path args =>
    obtain ⟨hs, hp, hlen, hargs⟩ := hwf
    rw [encodeFrame_exec s path args (by omega) hlen] at h ⊢
    rw [show ((0x90 + (args.length + 3)) :: 0x03 :: s :: enc_strs (path :: args)) ++ rest =
      (0x90 + (args.length + 3)) :: 0x03 :: s :: (enc_strs (path :: args) ++ rest) by
        simp [List.append_assoc]] at h
    rw [process_one_exec st t (args.length + 3) s (enc_strs (path :: args) ++ rest)
      stdin_tail (by omega) (by omega)] at h
    rw [show args.length + 3 - 1 = (path :: args).length + 1 by simp] at h
    rw [process_exec_msg_enc st [0x90 + (args.length + 3), 0x03] s (path :: args) rest
      hs (by simp; omega) (by simp)
      (by
        intro x hx
        rcases List.mem_cons.mp hx with hx1 | hx2
        · rw [hx1]; exact hp
        · exact hargs x hx2)] at h
    simp only [PRes.ok.injEq] at h
    refine ⟨[], ?_⟩
    rw [← h.1]
    simp
  | getFile path =>
    have hp : path.length < 2 ^ 16 := hwf
    rw [encodeFrame_get_file] at h ⊢
    rw [show (0x92 :: 0x06 :: enc_str path) ++ rest =
      0x92 :: 0x06 :: (enc_str path ++ rest) by simp] at h
    rw [process_one_get_file st t (enc_str path ++ rest) stdin_tail
      (by simp [enc_str, ltx_write_number])] at h
    rw [process_get_file_msg_enc st path rest hp] at h
    split at h
    · exact absurd h (by simp)
    · split at h
      · exact absurd h (by simp)
      · rename_i content heq hbig
        simp only [PRes.ok.injEq] at h
        refine ⟨ltx_write_msg 8 [.binN content.length] ++ content, ?_⟩
        rw [← h.1]
        simp [List.append_assoc]
  | setFile path blob =>
    obtain ⟨hp, hb⟩ := hwf
    rw [encodeFrame_set_file] at h ⊢
    rw [show (0x93 :: 0x07 ::
        (enc_str path ++ (ltx_write_number .bin_size blob.length ++ blob))) ++ rest =
      0x93 :: 0x07 ::
        (enc_str path ++ (ltx_write_number .bin_size blob.length ++ (blob ++ rest))) by
        simp [List.append_assoc]] at h
    rw [process_one_set_file st t _ stdin_tail
      (by simp [enc_str, ltx_write_number])] at h
    rw [process_set_file_msg_enc st path blob rest stdin_tail hp hb] at h
    simp only [PRes.ok.injEq] at h
    refine ⟨[], ?_⟩
    rw [← h.1]
    simp [List.append_assoc]
  | kill s =>
    have hs : s ≤ 126 := hwf
    rw [encodeFrame_kill s (by omega)] at h ⊢
    rw [show ([0x92, 0x09, s] : List Nat) ++ rest = 0x92 :: 0x09 :: s :: rest from rfl] at h
    rw [process_one_kill] at h
    rw [process_kill_msg_enc st s rest hs] at h
    simp only [PRes.ok.injEq] at h
    exact ⟨[], by rw [← h.1]; simp⟩

/-- C1 witness: the echo law applied to the concrete Ping frame in the
initial state. -/
theorem c1_echo_law_witness :
    ∃ resp, ([0x91, 0x00] ++ ltx_write_msg 1 [.num 0]) = encodeFrame .ping ++ resp :=
  c1_echo_law .ping st0 0 [] [] ([0x91, 0x00] ++ ltx_write_msg 1 [.num 0])
    ⟨[0x91, 0x00], []⟩ st0 trivial
    (by rw [encodeFrame_ping]; exact process_one_ping st0 0 [] [])

/-! ## Claim C2: file round trip -/

/-- C2 amended: for every blob B shorter than 2^16 bytes, processing
SetFile(P, B) succeeds, leaves the file at P with contents exactly B,
and a subsequent GetFile(P) emits (after the echo) a Data frame whose
declared length equals B.length and whose streamed payload equals B
exactly.  The unrestricted claim is false: with a canonical bin32 blob
(2^16 bytes or more) the stray fourth length byte becomes the first
file byte and the last blob byte is never written
(c2_bin32_setfile_corrupts_file). -/
theorem c2_round_trip_files (st : St) (P B : List Nat) (t t2 : Nat)
    (hp : P.length < 2 ^ 16) (hb : B.length < 2 ^ 16) :
    ∃ st1,
      process_one st t (encodeFrame (.setFile P B)) [] =
        .ok (encodeFrame (.setFile P B)) ⟨encodeFrame (.setFile P B), []⟩ st1 ∧
      st1.fs P = some B ∧
      process_one st1 t2 (encodeFrame (.getFile P)) [] =
        .ok (encodeFrame (.getFile P) ++ ltx_write_msg 8 [.binN B.length] ++ B)
          ⟨encodeFrame (.getFile P), []⟩ st1 := by
  refine ⟨{ st with fs := fun p => if p = P then some B else st.fs p }, ?_, ?_, ?_⟩
  · rw [encodeFrame_set_file]
    rw [show (0x93 :: 0x07 ::
        (enc_str P ++ (ltx_write_number .bin_size B.length ++ B))) =
      0x93 :: 0x07 ::
        (enc_str P ++ (ltx_write_number .bin_size B.length ++ (B ++ []))) by simp]
    rw [process_one_set_file st t _ [] (by simp [enc_str, ltx_write_number])]
    rw [process_set_file_msg_enc st P B [] [] hp hb]
    simp [List.append_assoc]
  · simp
  · have hgf := process_get_file_msg_enc
      { st with fs := fun p => if p = P then some B else st.fs p } P [] hp
    simp only [List.append_nil] at hgf
    rw [encodeFrame_get_file]
    rw [process_one_get_file _ t2 (enc_str P) [] (enc_str_ne_nil P), hgf]
    simp only [if_true]
    rw [if_neg (by omega)]

/-- C2 witness: the round trip at the concrete path "x" (byte 120) and
blob ABC (bytes 65 66 67) from the initial state. -/
theorem c2_round_trip_files_witness :
    ∃ st1,
      process_one st0 0 (encodeFrame (.setFile [120] [65, 66, 67])) [] =
        .ok (encodeFrame (.setFile [120] [65, 66, 67]))
          ⟨encodeFrame (.setFile [120] [65, 66, 67]), []⟩ st1 ∧
      st1.fs [120] = some [65, 66, 67] ∧
      process_one st1 1 (encodeFrame (.getFile [120])) [] =
        .ok (encodeFrame (.getFile [120]) ++
            ltx_write_msg 8 [.binN ([65, 66, 67] : List Nat).length] ++ [65, 66, 67])
          ⟨encodeFrame (.getFile [120]), []⟩ st1 :=
  c2_round_trip_files st0 [120] [65, 66, 67] 0 1 (by norm_num) (by norm_num)

/-! ## Claims C1 and C2, failing region: a canonical bin32 SetFile -/

/-- The file contents recorded for a path after a completed dispatch. -/
def PRes.fs_at (r : PRes) (p : List Nat) : Option (List Nat) :=
  match r with
  | .ok _ _ st => st.fs p
  | _ => none

/-- Decoding the canonical bin32 header c6 00 01 00 00 (length 65536):
the width formula takes only the 3 bytes 00 01 00 - which happen to
also evaluate to 65536 under the buggy shift - and leaves the fourth
length byte 00 in the stream. -/
theorem read_str_size_c6_0100 (pre rest : List Nat) :
    ltx_read_str_size ⟨pre, 0xc6 :: 0 :: 1 :: 0 :: 0 :: rest⟩ =
      .ok 65536 ⟨pre ++ [0xc6, 0, 1, 0], 0 :: rest⟩ := by
  simp only [ltx_read_str_size, cur_shift_cons]
  rw [if_neg (by omega), if_neg (by omega), if_pos (by norm_num),
    if_neg (by simp only [List.length_cons]; omega)]
  simp only [ltx_read_size, ltx_cur_take, List.take_succ_cons, List.take_zero,
    List.drop_succ_cons, List.drop_zero, size_loop_cons, size_loop_nil,
    Nat.zero_shiftLeft, Nat.zero_add, Nat.shiftLeft_eq]
  norm_num

set_option maxRecDepth 2000 in
/-- SetFile with a canonical bin32 blob of 65536 bytes, delivered the
way the 8 KiB input buffer forces: path and bin header buffered, the
blob itself streamed from stdin by the splice loop.  The mis-decoded
length header leaves its fourth byte 00 in the buffer; that byte is
written to the file first, followed by only the first 65535 blob
bytes, and the same corrupted contents are streamed back out. -/
theorem process_set_file_msg_bin32_splice (st : St) (path B : List Nat)
    (hp : path.length < 2 ^ 16) :
    process_set_file_msg st ⟨[0x93, 0x07], enc_str path ++ [0xc6, 0, 1, 0, 0]⟩ B =
      .ok (0x93 :: 0x07 :: (enc_str path ++ [0xc6, 0, 1, 0, 0] ++ (0 :: B.take 65535)))
        ⟨0x93 :: 0x07 :: (enc_str path ++ [0xc6, 0, 1, 0, 0]), []⟩
        { st with fs := fun p => if p = path then some (0 :: B.take 65535) else st.fs p } := by
  unfold process_set_file_msg
  rw [read_str_enc [0x93, 0x07] [0xc6, 0, 1, 0, 0] path hp]
  simp only
  rw [if_neg (by simp)]
  rw [show ([0xc6, 0, 1, 0, 0] : List Nat) = 0xc6 :: 0 :: 1 :: 0 :: 0 :: [] from rfl,
    read_str_size_c6_0100 ([0x93, 0x07] ++ enc_str path) []]
  simp only
  rw [show min ([0] : List Nat).length 65536 = 1 from by norm_num]
  simp only [ltx_cur_take, List.take_succ_cons, List.take_zero, List.drop_succ_cons,
    List.drop_zero, List.cons_append, List.nil_append]
  rw [show (65536 - 1 : Nat) = 65535 from rfl]
  simp only [List.take_take, Nat.min_self]
  simp only [ltx_write_msg]
  rw [show ([LtxObj.str path, LtxObj.binN 65536] : List LtxObj).length + 1 = 3 from rfl]
  rw [write_number_array_fix 3 (by norm_num)]
  simp only [List.map_cons, List.map_nil, ltx_write_obj, List.flatten]
  rw [show ltx_write_number .bin_size 65536 = [0xc6, 0, 1, 0, 0] from by decide]
  simp only [enc_str, List.append_assoc, List.cons_append, List.nil_append,
    List.append_nil]

set_option maxRecDepth 2000 in
/-- C2 counterexample: the canonical SetFile frame for path "x" and
the 65536-byte blob of 0x01 bytes (bin32 header c6 00 01 00 00, blob
arriving on stdin for the splice loop) completes its dispatch, but the
file ends up holding a stray 00 byte followed by only the first 65535
blob bytes — not the blob: the round trip of the claim fails for this
path and blob. -/
theorem c2_bin32_setfile_corrupts_file :
    ((process_one st0 0 (0x93 :: 0x07 :: (enc_str [120] ++ [0xc6, 0, 1, 0, 0]))
        (List.replicate 65536 1)).fs_at [120] =
      some (0 :: List.replicate 65535 1)) ∧
    (0 :: List.replicate 65535 1 ≠ List.replicate 65536 1) ∧
    ((0x93 :: 0x07 :: (enc_str [120] ++ [0xc6, 0, 1, 0, 0])) ++ List.replicate 65536 1 =
      encodeFrame (.setFile [120] (List.replicate 65536 1))) := by
  refine ⟨?_, ?_, ?_⟩
  · rw [process_one_set_file st0 0 (enc_str [120] ++ [0xc6, 0, 1, 0, 0])
      (List.replicate 65536 1) (by simp [enc_str, ltx_write_number])]
    rw [process_set_file_msg_bin32_splice st0 [120] (List.replicate 65536 1) (by norm_num)]
    simp only [PRes.fs_at]
    rw [show (List.replicate 65536 1 : List Nat).take 65535 = List.replicate 65535 1 from by
      rw [List.take_replicate]
      norm_num]
    rfl
  · intro h
    rw [show (65536 : Nat) = 65535 + 1 from rfl] at h
    nth_rewrite 2 [List.replicate_succ] at h
    simp only [List.cons.injEq] at h
    exact absurd h.1 (by norm_num)
  · rw [encodeFrame_set_file, List.length_replicate]
    rw [show ltx_write_number .bin_size 65536 = [0xc6, 0, 1, 0, 0] from by decide]
    simp only [List.cons_append, List.append_assoc, List.nil_append]

set_option maxRecDepth 2000 in
/-- C1 counterexample: processing the canonical SetFile frame for path
"y" and the 65536-byte blob of 0x02 bytes (bin32 header, blob streamed
from stdin) completes, but the appended output bytes do not begin with
the byte-identical encoding of the frame: they diverge at the first
blob byte (00 from the mis-consumed length field instead of 02). -/
theorem c1_bin32_setfile_echo_differs :
    ((process_one st0 0 (0x93 :: 0x07 :: (enc_str [121] ++ [0xc6, 0, 1, 0, 0]))
        (List.replicate 65536 2)).out? =
      some (0x93 :: 0x07 ::
        (enc_str [121] ++ [0xc6, 0, 1, 0, 0] ++ (0 :: List.replicate 65535 2)))) ∧
    ((0x93 :: 0x07 :: (enc_str [121] ++ [0xc6, 0, 1, 0, 0])) ++ List.replicate 65536 2 =
      encodeFrame (.setFile [121] (List.replicate 65536 2))) ∧
    ¬ ∃ resp,
      0x93 :: 0x07 :: (enc_str [121] ++ [0xc6, 0, 1, 0, 0] ++ (0 :: List.replicate 65535 2)) =
        encodeFrame (.setFile [121] (List.replicate 65536 2)) ++ resp := by
  refine ⟨?_, ?_, ?_⟩
  · rw [process_one_set_file st0 0 (enc_str [121] ++ [0xc6, 0, 1, 0, 0])
      (List.replicate 65536 2) (by simp [enc_str, ltx_write_number])]
    rw [process_set_file_msg_bin32_splice st0 [121] (List.replicate 65536 2) (by norm_num)]
    simp only [PRes.out?]
    rw [show (List.replicate 65536 2 : List Nat).take 65535 = List.replicate 65535 2 from by
      rw [List.take_replicate]
      norm_num]
  · rw [encodeFrame_set_file, List.length_replicate]
    rw [show ltx_write_number .bin_size 65536 = [0xc6, 0, 1, 0, 0] from by decide]
    simp only [List.cons_append, List.append_assoc, List.nil_append]
  · rw [encodeFrame_set_file, List.length_replicate]
    rw [show ltx_write_number .bin_size 65536 = [0xc6, 0, 1, 0, 0] from by decide]
    rw [show enc_str [121] = [0xa1, 121] from by decide]
    rintro ⟨resp, heq⟩
    rw [show (65536 : Nat) = 65535 + 1 from rfl] at heq
    nth_rewrite 2 [List.replicate_succ] at heq
    simp only [List.cons_append, List.append_assoc, List.nil_append, List.cons.injEq,
      true_and, and_true, false_and, and_false] at heq
    exact absurd heq.1 (by norm_num)
